import Mathlib

/-!
Verification development for `theanet/neuralnet.py` (class `NeuralNet`).

The file shallowly embeds the network assembler, the learning-rate
scheduler, the checkpoint contract and the batch-indexed function
compilers of `neuralnet.py`.  The individual layer implementations
(`theanet.layer`, imported but not part of the sources) are external
collaborators: everything the assembler reads from a layer (shape
metadata, fresh-weight initialization, per-layer update contributions)
is abstracted into a `LayerImpl` parameter, and every constructed layer
records the exact constructor invocation (`CtorCall`) the assembler
performed, so claims about "what is passed to the constructor" are
statable directly.

Numeric tensors are opaque (`Tensor := Int`), learning-rate arithmetic
is over `Rat` (Python floats behave exactly like exact arithmetic on
every claim-relevant value), Python `assert` failures and exceptions
are `Except` errors named after the specification's error taxonomy.
-/

/-- Opaque numeric tensor blob (weight values are only ever moved around
verbatim by the code under verification, never inspected). -/
abbrev Tensor := Int

/-- One element of a caller-supplied dataset. -/
abbrev Data := Int

/-- One layer's group of weight tensors (`get_wts` result / `allwts` entry). -/
abbrev WtGroup := List Tensor

/-- Opaque token standing for the keyword-options mapping of one layer spec
(`layers[i][1]`); the code under verification only forwards it. -/
abbrev LayerArgs := Nat

/-- A layer specification: `(type-tag, options)`, exactly `layers[i]`. -/
abbrev LayerSpec := String × LayerArgs

/-- Symbolic graph tensors.  `x`, `test_x`, `y` are the module-level symbolic
variables of `NeuralNet.__init__`; `out b i` is the output tensor of layer
`i` (train mode when `b = true`); `aux b i` is the auxiliary input tensor
declared by layer `i`; `flatten2 t` is `t.flatten(2)`. -/
inductive SymT where
  | x : SymT
  | test_x : SymT
  | y : SymT
  | out : Bool → Nat → SymT
  | aux : Bool → Nat → SymT
  | flatten2 : SymT → SymT
deriving DecidableEq, Repr

/-- Error taxonomy of the spec, plus the Python `IndexError`/`KeyError`
family for out-of-range subscripts (`wts[3]`, `allwts[i]`, `layers[0]`).
`configurationError` is the first-layer `assert`, `multipleAuxiliaryInput`
the "Multiple Aux Inputs" `assert`, `missingAuxiliaryData` the
"Auxillary data not supplied" `assert`, `notImplemented` the
`NotImplementedError("Unknown Layer Type"...)`. -/
inductive NetError where
  | configurationError : NetError
  | multipleAuxiliaryInput : NetError
  | missingAuxiliaryData : NetError
  | notImplemented : String → NetError
  | indexError : NetError
deriving DecidableEq, Repr

/-- The exact constructor invocation `append_next_layer` performs for a new
layer.  Each variant lists the positional arguments in source order:
`ConvLayer(tr_inpt, wts, rand_gen, batch_sz, num_prev_maps, prev_out_sz, **args)`,
`Pool/MeanLayer(tr_inpt, num_prev_maps, prev_out_sz, **args)`,
`DropOutLayer(tr_inpt, rand_gen, prev.n_out, **args)`,
fully-connected family `(tr_inpt.flatten(2), wts, rand_gen, prev.n_out, **args)`,
`CenteredOutLayer(tr_inpt.flatten(2), wts, centers, rand_gen, prev.n_out, **args)`,
and the input/elastic layer `(x, **args)`. -/
inductive CtorCall where
  | inputL : SymT → LayerArgs → CtorCall
  | conv : SymT → Option WtGroup → Option Nat → Nat → Nat → Nat → LayerArgs → CtorCall
  | pool : String → SymT → Nat → Nat → LayerArgs → CtorCall
  | dropOut : SymT → Option Nat → Nat → LayerArgs → CtorCall
  | fullConn : String → SymT → Option WtGroup → Option Nat → Nat → LayerArgs → CtorCall
  | centeredOut : SymT → Option WtGroup → Option Tensor → Option Nat → Nat → LayerArgs → CtorCall
deriving DecidableEq, Repr

/-- The weight-and-generator-independent part of a constructor invocation:
layer type, symbolic input, shape metadata and options.  Per the spec a
layer's output shape is determined by these (never by supplied weight
values or the generator). -/
inductive CtorSig where
  | inputL : SymT → LayerArgs → CtorSig
  | conv : SymT → Nat → Nat → Nat → LayerArgs → CtorSig
  | pool : String → SymT → Nat → Nat → LayerArgs → CtorSig
  | dropOut : SymT → Nat → LayerArgs → CtorSig
  | fullConn : String → SymT → Nat → LayerArgs → CtorSig
  | centeredOut : SymT → Nat → LayerArgs → CtorSig
deriving DecidableEq, Repr

/-- Strip the supplied-weights / generator arguments of a constructor call. -/
def CtorCall.sig : CtorCall → CtorSig
  | .inputL i a => .inputL i a
  | .conv i _ _ b m s a => .conv i b m s a
  | .pool t i m s a => .pool t i m s a
  | .dropOut i _ n a => .dropOut i n a
  | .fullConn t i _ _ n a => .fullConn t i n a
  | .centeredOut i _ _ _ n a => .centeredOut i n a

/-- The symbolic input tensor handed to the constructor. -/
def CtorCall.inpt : CtorCall → SymT
  | .inputL i _ => i
  | .conv i _ _ _ _ _ _ => i
  | .pool _ i _ _ _ => i
  | .dropOut i _ _ _ => i
  | .fullConn _ i _ _ _ _ => i
  | .centeredOut i _ _ _ _ _ => i

/-- The `(num_prev_maps, prev_out_sz)` pair passed to a shape-consuming
constructor (convolution / pooling / mean-pooling), `none` for every
other constructor, which receives no feature-map count or spatial size. -/
def CtorCall.shapeArgs : CtorCall → Option (Nat × Nat)
  | .conv _ _ _ _ m s _ => some (m, s)
  | .pool _ _ m s _ => some (m, s)
  | _ => none

/-- The flat previous-layer width passed to a constructor
(`prev_tr_layer.n_out`): the dropout, fully-connected and centered-output
constructors receive it, no other constructor does. -/
def CtorCall.prevWidth : CtorCall → Option Nat
  | .dropOut _ _ n _ => some n
  | .fullConn _ _ _ _ n _ => some n
  | .centeredOut _ _ _ _ n _ => some n
  | _ => none

/-- The random-generator argument of a constructor invocation (`none` both
when the generator object is `None` and when the constructor takes no
generator at all). -/
def CtorCall.randArg : CtorCall → Option Nat
  | .conv _ _ r _ _ _ _ => r
  | .dropOut _ r _ _ => r
  | .fullConn _ _ _ r _ _ => r
  | .centeredOut _ _ _ r _ _ => r
  | _ => none

/-- The preset-weights argument of a weight-accepting constructor invocation
(`some w` where `w` is the `wts` argument), `none` for constructors that
take no weights. -/
def CtorCall.wtsArg : CtorCall → Option (Option WtGroup)
  | .conv _ w _ _ _ _ _ => some w
  | .fullConn _ _ w _ _ _ => some w
  | .centeredOut _ w _ _ _ _ => some w
  | _ => none

/-- The class-centers argument of a `CenteredOutLayer` invocation. -/
def CtorCall.centersArg : CtorCall → Option Tensor
  | .centeredOut _ _ c _ _ _ => c
  | _ => none

/-- Modelled from the spec: the behaviour of the external layer module
(`theanet.layer`, not among the sources).  `shape c` is the
`(num_maps, out_sz, n_out)` metadata a layer constructed by call `c`
exposes, a function of the call's signature only (spec: shape metadata is
determined by layer type, options and input shape, never by weight
values).  `initWts c` is the deterministic fresh weight initialization
(spec: seeded generator makes initialization reproducible).
`initCenters c` is the internal class-center initialization of a
centered-output layer when no centers are supplied.  `slot2 hw c` is the
entry the layer stores between the two hidden-transform groups and the
trailing centers group in its saved weight tuple (the spec fixes
positions 0, 1 and 3 of that tuple; the remaining entry is some
deterministic function of the layer's stored parameters).
`getUpdates rate ctor saved` is a layer's parameter-update contribution
(`lyr.get_updates(cost, cur_learn_rate)`, a function of the learning
rate and the layer's own construction and current weights), an opaque
list of (layer position, new weight group) assignments. -/
structure LayerImpl where
  shape : CtorSig → Nat × Nat × Nat
  initWts : CtorCall → WtGroup
  initCenters : CtorCall → Tensor
  slot2 : WtGroup → Tensor → Tensor
  getUpdates : Rat → CtorCall → WtGroup → List (Nat × WtGroup)

/-- One constructed layer instance (train or test variant): the protocol
fields the assembler reads back (`num_maps`, `out_sz`, `n_out`, `output`,
`aux_inpt`, `get_wts`), plus the record of the constructor invocation
that produced it. -/
structure LayerInstance where
  tag : String
  ctor : CtorCall
  num_maps : Nat
  out_sz : Nat
  n_out : Nat
  inpt : SymT
  output : SymT
  aux_inpt : Option SymT
  saved : WtGroup
deriving DecidableEq, Repr

/-- The observable part of a layer instance: everything except the recorded
constructor call.  Two chains agreeing on `obs` have identical
architecture (tags and shape metadata), identical symbolic wiring and
bit-identical weights. -/
structure LayerObs where
  tag : String
  num_maps : Nat
  out_sz : Nat
  n_out : Nat
  inpt : SymT
  output : SymT
  aux_inpt : Option SymT
  saved : WtGroup
deriving DecidableEq, Repr

/-- Project a layer instance to its observable part. -/
def LayerInstance.obs (l : LayerInstance) : LayerObs :=
  { tag := l.tag, num_maps := l.num_maps, out_sz := l.out_sz, n_out := l.n_out,
    inpt := l.inpt, output := l.output, aux_inpt := l.aux_inpt, saved := l.saved }

/-- Construct the train-mode layer instance number `idx` for constructor
call `ctor` with stored weight group `saved`.  Shape metadata comes from
the external layer implementation; the output tensor is the layer's own
symbolic output; the two auxiliary-input-declaring layer types
(`AuxConcatLayer`, `SoftAuxLayer`) expose their `aux_inpt` tensor. -/
def mkLayer (impl : LayerImpl) (tag : String) (ctor : CtorCall) (saved : WtGroup)
    (idx : Nat) : LayerInstance :=
  { tag := tag, ctor := ctor,
    num_maps := (impl.shape ctor.sig).1,
    out_sz := (impl.shape ctor.sig).2.1,
    n_out := (impl.shape ctor.sig).2.2,
    inpt := ctor.inpt,
    output := SymT.out true idx,
    aux_inpt := if tag = "AuxConcatLayer" ∨ tag = "SoftAuxLayer"
                then some (SymT.aux true idx) else none,
    saved := saved }

/-- Construct a weight-accepting layer: modelled from the spec, the layer
uses supplied weights verbatim (its `get_wts` returns them), and falls
back to the deterministic fresh initialization when none are supplied. -/
def mkWtLayer (impl : LayerImpl) (tag : String) (ctor : CtorCall)
    (wts : Option WtGroup) (idx : Nat) : LayerInstance :=
  mkLayer impl tag ctor (match wts with | some g => g | none => impl.initWts ctor) idx

/-- Construct a `CenteredOutLayer`: the hidden transform stores the supplied
two weight groups (or a fresh initialization), the centers are the
supplied ones (or internally initialized).  Modelled from the spec, its
saved weight tuple has the hidden groups at positions 0 and 1 and the
centers at position 3. -/
def mkCenteredLayer (impl : LayerImpl) (inpt : SymT) (wts2 : Option WtGroup)
    (centers : Option Tensor) (rg : Option Nat) (nIn : Nat) (args : LayerArgs)
    (idx : Nat) : LayerInstance :=
  let ctor := CtorCall.centeredOut inpt wts2 centers rg nIn args
  let hw := match wts2 with | some g => g | none => impl.initWts ctor
  let cent := match centers with | some c => c | none => impl.initCenters ctor
  mkLayer impl "CenteredOutLayer" ctor (hw ++ [impl.slot2 hw cent, cent]) idx

/-- The `curr_layer.TestVersion(te_inpt)` evaluation-mode instance `idx`:
architecturally identical to the train variant (same tag, shape metadata
and — conceptually shared — weights), with its own symbolic input, output
and auxiliary-input tensors. -/
def TestVersion (tr : LayerInstance) (te_inpt : SymT) (idx : Nat) : LayerInstance :=
  { tr with inpt := te_inpt,
            output := SymT.out false idx,
            aux_inpt := if tr.tag = "AuxConcatLayer" ∨ tr.tag = "SoftAuxLayer"
                        then some (SymT.aux false idx) else none }

/-- The `training_params` mapping.  Required keys are fields; `CUR_EPOCH`
may be absent (`none`) at construction, in which case `__init__` inserts
it with value `0`. -/
structure TrParms where
  SEED : Nat
  BATCH_SZ : Nat
  INIT_LEARNING_RATE : Rat
  EPOCHS_TO_HALF_RATE : Rat
  CUR_EPOCH : Option Rat
deriving DecidableEq, Repr

/-- The value of `training_params['CUR_EPOCH']`.  In the code the key is
always present when it is read (construction inserts it); the `getD 0`
default is never exercised on a constructed network. -/
def TrParms.curEpochVal (p : TrParms) : Rat := p.CUR_EPOCH.getD 0

/-- The inverse-time-decay value assigned by `set_rate`:
`INIT_LEARNING_RATE / (1 + CUR_EPOCH / EPOCHS_TO_HALF_RATE)`. -/
def rateFormula (p : TrParms) : Rat :=
  p.INIT_LEARNING_RATE / (1 + p.curEpochVal / p.EPOCHS_TO_HALF_RATE)

/-- The `NeuralNet` object.  `aux_inpt_tr`/`aux_inpt_te` model the
conditionally-existing attributes (`none` = attribute absent, the
`hasattr` checks test `isSome`); `cur_learn_rate` is the shared
learning-rate scalar. -/
structure NeuralNet where
  rand_gen : Option Nat
  tr_prms : TrParms
  layers : List LayerSpec
  allwts : Option (List WtGroup)
  tr_layers : List LayerInstance
  te_layers : List LayerInstance
  batch_sz : Nat
  num_layers : Nat
  aux_inpt_tr : Option SymT
  aux_inpt_te : Option SymT
  cur_learn_rate : Rat
deriving DecidableEq, Repr

/-- `wts = self.allwts[self.num_layers] if self.allwts else None`, with
Python truthiness of the list and the potential `IndexError`. -/
def NeuralNet.wtsOf (s : NeuralNet) : Except NetError (Option WtGroup) :=
  match s.allwts with
  | some l =>
    if l = [] then Except.ok none
    else match l.get? s.num_layers with
      | some g => Except.ok (some g)
      | none => Except.error NetError.indexError
  | none => Except.ok none

/-- The shape-metadata source for a shape-consuming layer: the layer before
the previous one exactly when the previous train layer is a dropout
layer, the previous layer itself otherwise (lines 116-121). -/
def NeuralNet.shapeSrc (s : NeuralNet) (prev : LayerInstance) :
    Except NetError LayerInstance :=
  if prev.tag = "DropOutLayer" then
    match s.tr_layers.get? (s.num_layers - 2) with
    | some l => Except.ok l
    | none => Except.error NetError.indexError
  else Except.ok prev

/-- The `if wts: centers = wts[3]; wts = wts[:2] else: centers = None`
split performed for a `CenteredOutLayer` spec (lines 162-166), with
Python truthiness (`None` and the empty group are both falsy) and the
`IndexError` of `wts[3]` on a short group. -/
def centSplit (wts : Option WtGroup) :
    Except NetError (Option WtGroup × Option Tensor) :=
  match wts with
  | some g =>
    if g = [] then Except.ok (some g, none)
    else match g.get? 3 with
      | some c => Except.ok (some (g.take 2), some c)
      | none => Except.error NetError.indexError
  | none => Except.ok (none, none)

/-- The dispatch body of `append_next_layer` (lines 106-175): select the
spec at position `num_layers`, read the previous train/test instances,
fetch the weight group, and run the per-type wiring rule, producing the
new train layer and the (possibly flattened) test-mode input tensor. -/
def NeuralNet.next_layer_and_te (impl : LayerImpl) (s : NeuralNet) :
    Except NetError (LayerInstance × SymT) :=
  match s.layers.get? s.num_layers with
  | none => Except.error NetError.indexError
  | some (layer_type, layer_args) =>
    match s.tr_layers.get? (s.num_layers - 1) with
    | none => Except.error NetError.indexError
    | some prev_tr_layer =>
      match s.te_layers.get? (s.num_layers - 1) with
      | none => Except.error NetError.indexError
      | some prev_te_layer =>
        match s.wtsOf with
        | Except.error e => Except.error e
        | Except.ok wts =>
          if layer_type = "ConvLayer" ∨ layer_type = "PoolLayer" ∨ layer_type = "MeanLayer" then
            match s.shapeSrc prev_tr_layer with
            | Except.error e => Except.error e
            | Except.ok use_tr_layer =>
              if layer_type = "ConvLayer" then
                Except.ok (mkWtLayer impl layer_type
                  (CtorCall.conv prev_tr_layer.output wts s.rand_gen s.batch_sz
                    use_tr_layer.num_maps use_tr_layer.out_sz layer_args)
                  wts s.num_layers, prev_te_layer.output)
              else
                Except.ok (mkLayer impl layer_type
                  (CtorCall.pool layer_type prev_tr_layer.output
                    use_tr_layer.num_maps use_tr_layer.out_sz layer_args)
                  [] s.num_layers, prev_te_layer.output)
          else if layer_type = "DropOutLayer" then
            Except.ok (mkLayer impl layer_type
              (CtorCall.dropOut prev_tr_layer.output s.rand_gen
                prev_tr_layer.n_out layer_args)
              [] s.num_layers, prev_te_layer.output)
          else if layer_type = "AuxConcatLayer" ∨ layer_type = "HiddenLayer"
              ∨ layer_type = "SoftmaxLayer" ∨ layer_type = "SoftAuxLayer"
              ∨ layer_type = "SVMLayer" then
            Except.ok (mkWtLayer impl layer_type
              (CtorCall.fullConn layer_type (SymT.flatten2 prev_tr_layer.output)
                wts s.rand_gen prev_tr_layer.n_out layer_args)
              wts s.num_layers, SymT.flatten2 prev_te_layer.output)
          else if layer_type = "CenteredOutLayer" then
            match centSplit wts with
            | Except.error e => Except.error e
            | Except.ok sp =>
              Except.ok (mkCenteredLayer impl (SymT.flatten2 prev_tr_layer.output)
                sp.1 sp.2 s.rand_gen prev_tr_layer.n_out layer_args s.num_layers,
                SymT.flatten2 prev_te_layer.output)
          else Except.error (NetError.notImplemented layer_type)

/-- Lines 177-179: append the new train layer and its test version, and
advance the layer counter. -/
def NeuralNet.pushLayer (s : NeuralNet) (curr : LayerInstance) (te_inpt : SymT) :
    NeuralNet :=
  { s with tr_layers := s.tr_layers ++ [curr],
           te_layers := s.te_layers ++ [TestVersion curr te_inpt s.num_layers],
           num_layers := s.num_layers + 1 }

/-- `append_next_layer` = compute the new layer pair, then push it. -/
def NeuralNet.append_next_layer (impl : LayerImpl) (s : NeuralNet) :
    Except NetError NeuralNet :=
  match s.next_layer_and_te impl with
  | Except.ok r => Except.ok (s.pushLayer r.1 r.2)
  | Except.error e => Except.error e

/-- The `while self.num_layers < len(layers): self.append_next_layer()`
loop, with fuel `len(layers) - 1` (each iteration grows `num_layers` by
exactly one). -/
def buildLoop (impl : LayerImpl) : Nat → NeuralNet → Except NetError NeuralNet
  | 0, s => Except.ok s
  | Nat.succ n, s =>
    match NeuralNet.append_next_layer impl s with
    | Except.ok s2 => buildLoop impl n s2
    | Except.error e => Except.error e

/-- The auxiliary-input scan of `__init__` (lines 93-97): walk the
train/test layer pairs; on each auxiliary-input-declaring layer, assert
the handle attributes are not yet set (else "Multiple Aux Inputs") and
record the pair's `aux_inpt` tensors.  The accumulator is `none` while
the attributes do not exist. -/
def auxScan : List (LayerInstance × LayerInstance) →
    Option (Option SymT × Option SymT) →
    Except NetError (Option (Option SymT × Option SymT))
  | [], acc => Except.ok acc
  | (tr, te) :: rest, acc =>
    if tr.tag = "AuxConcatLayer" ∨ tr.tag = "SoftAuxLayer" then
      match acc with
      | some _ => Except.error NetError.multipleAuxiliaryInput
      | none => auxScan rest (some (tr.aux_inpt, te.aux_inpt))
    else auxScan rest acc

/-- Lines 63-66 of `__init__`: seed a generator when no weights are
supplied (`allwts is None`), otherwise carry no generator at all. -/
def randGenOf (training_params : TrParms) (allwts : Option (List WtGroup)) :
    Option Nat :=
  match allwts with | none => some training_params.SEED | some _ => none

/-- Lines 59-91 of `__init__`: generator selection, first-layer validation
(`assert layers[0][0] in ('InputLayer', 'ElasticLayer')`, raised before
any layer instance is built), input-layer construction, and the
layer-appending loop. -/
def NeuralNet.buildLayersStage (impl : LayerImpl) (layers : List LayerSpec)
    (training_params : TrParms) (allwts : Option (List WtGroup)) :
    Except NetError NeuralNet :=
  match layers.get? 0 with
  | none => Except.error NetError.indexError
  | some spec0 =>
    if spec0.1 = "InputLayer" ∨ spec0.1 = "ElasticLayer" then
      buildLoop impl (layers.length - 1)
        { rand_gen := randGenOf training_params allwts,
          tr_prms := training_params, layers := layers,
          allwts := allwts,
          tr_layers := [mkLayer impl spec0.1 (CtorCall.inputL SymT.x spec0.2) [] 0],
          te_layers := [TestVersion
            (mkLayer impl spec0.1 (CtorCall.inputL SymT.x spec0.2) [] 0) SymT.test_x 0],
          batch_sz := training_params.BATCH_SZ, num_layers := 1,
          aux_inpt_tr := none, aux_inpt_te := none, cur_learn_rate := 0 }
    else Except.error NetError.configurationError

/-- `set_rate`: recompute the shared learning-rate scalar from the current
epoch (lines 255-259). -/
def NeuralNet.set_rate (net : NeuralNet) : NeuralNet :=
  { net with cur_learn_rate := rateFormula net.tr_prms }

/-- The train-mode half of the scan result (attribute absent when the scan
set nothing). -/
def auxFst : Option (Option SymT × Option SymT) → Option SymT
  | none => none
  | some ab => ab.1

/-- The test-mode half of the scan result. -/
def auxSnd : Option (Option SymT × Option SymT) → Option SymT
  | none => none
  | some ab => ab.2

/-- Full `NeuralNet.__init__`: build the layer chains, scan for auxiliary
inputs, default `CUR_EPOCH` to `0` when absent, create the shared
learning-rate scalar (initially `0.0`) and call `set_rate`. -/
def NeuralNet.build (impl : LayerImpl) (layers : List LayerSpec)
    (training_params : TrParms) (allwts : Option (List WtGroup)) :
    Except NetError NeuralNet :=
  match NeuralNet.buildLayersStage impl layers training_params allwts with
  | Except.error e => Except.error e
  | Except.ok s1 =>
    match auxScan (s1.tr_layers.zip s1.te_layers) none with
    | Except.error e => Except.error e
    | Except.ok auxr =>
      let p2 := if s1.tr_prms.CUR_EPOCH = none
                then { s1.tr_prms with CUR_EPOCH := some 0 } else s1.tr_prms
      Except.ok (NeuralNet.set_rate
        { s1 with aux_inpt_tr := auxFst auxr, aux_inpt_te := auxSnd auxr,
                  tr_prms := p2, cur_learn_rate := 0 })

/-- `inc_epoch_set_rate`: `self.tr_prms['CUR_EPOCH'] += 1` then `set_rate()`
(lines 261-263). -/
def NeuralNet.inc_epoch_set_rate (net : NeuralNet) : NeuralNet :=
  NeuralNet.set_rate
    { net with tr_prms :=
        { net.tr_prms with CUR_EPOCH := some (net.tr_prms.curEpochVal + 1) } }

/-- `get_epoch` (lines 265-266). -/
def NeuralNet.get_epoch (net : NeuralNet) : Rat := net.tr_prms.curEpochVal

/-- The checkpoint structure returned by `get_init_params` (lines 250-253). -/
structure Checkpoint where
  layers : List LayerSpec
  training_params : TrParms
  allwts : List WtGroup
deriving DecidableEq, Repr

/-- `get_init_params`: layer specs, training parameters and every train
layer's `get_wts()` group. -/
def NeuralNet.get_init_params (net : NeuralNet) : Checkpoint :=
  { layers := net.layers, training_params := net.tr_prms,
    allwts := net.tr_layers.map LayerInstance.saved }

/-- Python list slicing `xs[a:b]` for `0 ≤ a ≤ b`: the elements at indices
`a, a+1, ..., b-1`. -/
def pySlice (xs : List Data) (a b : Nat) : List Data := (xs.drop a).take (b - a)

/-- A parameter-update instruction of the compiled train-step function:
assign the given new weight group to the train layer at the given
position. -/
abbrev Updt := Nat × WtGroup

/-- A compiled, batch-indexed step function (result of `theano.function`
in `get_trin_model` / `get_test_model`): the retained datasets, the
symbolic tensors the `givens` dictionary binds, the batch size closed
over, and the update set the function was compiled with (empty for the
test-step function). -/
structure CompiledStep where
  batch_sz : Nat
  x_sym : SymT
  x_data : List Data
  y_data : List Data
  aux_sym : Option SymT
  aux_data : Option (List Data)
  updates : List Updt
deriving DecidableEq, Repr

/-- The `givens` bindings the compiled step realizes when invoked on batch
index `i`: each bound symbolic tensor receives the dataset slice
`[i*BATCH_SZ : (i+1)*BATCH_SZ]`, the auxiliary tensor included exactly
when the network bound one. -/
def CompiledStep.givensAt (m : CompiledStep) (i : Nat) : List (SymT × List Data) :=
  [(m.x_sym, pySlice m.x_data (i * m.batch_sz) ((i + 1) * m.batch_sz)),
   (SymT.y, pySlice m.y_data (i * m.batch_sz) ((i + 1) * m.batch_sz))]
  ++ (match m.aux_sym, m.aux_data with
      | some s, some d => [(s, pySlice d (i * m.batch_sz) ((i + 1) * m.batch_sz))]
      | _, _ => [])

/-- The mutable numeric state a compiled function can touch: every train
layer's weight tensors, the training-parameter mapping (with
`CUR_EPOCH`), and the shared learning-rate scalar. -/
structure RunState where
  wts : List WtGroup
  tr_prms : TrParms
  cur_learn_rate : Rat
deriving DecidableEq, Repr

/-- Apply one parameter-update instruction. -/
def applyUpdate (s : RunState) (u : Updt) : RunState :=
  { s with wts := s.wts.set u.1 u.2 }

/-- Invoke a compiled step function on batch index `i` against state `s`:
the side effect on shared state is exactly the application of the update
set the function was compiled with. -/
def CompiledStep.run (m : CompiledStep) (_i : Nat) (s : RunState) : RunState :=
  m.updates.foldl applyUpdate s

/-- `get_trin_model(x_data, y_data, aux_data)` (lines 181-209): build the
update set from every layer's contribution, bind `x`/`y` to
batch-indexed slices of the supplied datasets, and — when the network
declared an auxiliary input — `assert aux_data is not None` ("Auxillary
data not supplied") and bind it too.  The compiled function applies the
updates on every call.  (The cost/feature/log-probability outputs are
layer-internal symbolic values and are not modelled.)  `trainUpdates` is
the update-set construction of lines 189-191. -/
def trainUpdates (impl : LayerImpl) (net : NeuralNet) : List Updt :=
  net.tr_layers.foldl
    (fun acc l => acc ++ impl.getUpdates net.cur_learn_rate l.ctor l.saved) []

/-- `get_trin_model(x_data, y_data, aux_data)` continued: see the comment
above `trainUpdates`. -/
def NeuralNet.get_trin_model (impl : LayerImpl) (net : NeuralNet)
    (x_data y_data : List Data) (aux_data : Option (List Data)) :
    Except NetError CompiledStep :=
  if net.aux_inpt_tr.isSome then
    match aux_data with
    | none => Except.error NetError.missingAuxiliaryData
    | some _ =>
      Except.ok { batch_sz := net.tr_prms.BATCH_SZ, x_sym := SymT.x,
                  x_data := x_data, y_data := y_data,
                  aux_sym := net.aux_inpt_tr, aux_data := aux_data,
                  updates := trainUpdates impl net }
  else
    Except.ok { batch_sz := net.tr_prms.BATCH_SZ, x_sym := SymT.x,
                x_data := x_data, y_data := y_data,
                aux_sym := none, aux_data := none,
                updates := trainUpdates impl net }

/-- `get_test_model(x_data, y_data, aux_data, ...)` (lines 211-231): bind
`test_x`/`y` to batch-indexed slices, the test-mode auxiliary tensor
when present (same missing-data `assert`), and compile with no update
set.  (The error-metric/prediction outputs are layer-internal and not
modelled.) -/
def NeuralNet.get_test_model (net : NeuralNet)
    (x_data y_data : List Data) (aux_data : Option (List Data)) :
    Except NetError CompiledStep :=
  if net.aux_inpt_te.isSome then
    match aux_data with
    | none => Except.error NetError.missingAuxiliaryData
    | some _ =>
      Except.ok { batch_sz := net.tr_prms.BATCH_SZ, x_sym := SymT.test_x,
                  x_data := x_data, y_data := y_data,
                  aux_sym := net.aux_inpt_te, aux_data := aux_data,
                  updates := [] }
  else
    Except.ok { batch_sz := net.tr_prms.BATCH_SZ, x_sym := SymT.test_x,
                x_data := x_data, y_data := y_data,
                aux_sym := none, aux_data := none,
                updates := [] }

/-- Heap addresses for the reference-semantics model of Python objects. -/
abbrev Addr := Nat

/-- A heap of `training_params` dictionaries.  Python passes the mapping by
reference; the network stores the address, so its in-place writes are
visible through the caller's own reference. -/
abbrev Store := Addr → TrParms

/-- Write one mapping in the heap. -/
def Store.write (st : Store) (a : Addr) (p : TrParms) : Store :=
  fun b => if b = a then p else st b

/-- A constructed network together with the address of the caller-supplied
`training_params` mapping it aliases. -/
structure NeuralNetRef where
  core : NeuralNet
  tr_prms_addr : Addr

/-- Reference-level construction: read the caller's mapping from the heap,
run `__init__`, and write the (possibly `CUR_EPOCH`-augmented) mapping
back through the same address — the caller's object is mutated in
place, never copied. -/
def buildRef (impl : LayerImpl) (layers : List LayerSpec) (a : Addr)
    (st : Store) (allwts : Option (List WtGroup)) :
    Except NetError (NeuralNetRef × Store) :=
  match NeuralNet.build impl layers (st a) allwts with
  | Except.ok net =>
    Except.ok ({ core := net, tr_prms_addr := a }, st.write a net.tr_prms)
  | Except.error e => Except.error e

/-- Reference-level `inc_epoch_set_rate`: increment `CUR_EPOCH` in the
aliased mapping, through the stored address. -/
def incEpochRef (r : NeuralNetRef) (st : Store) : NeuralNetRef × Store :=
  let net2 := NeuralNet.inc_epoch_set_rate { r.core with tr_prms := st r.tr_prms_addr }
  ({ r with core := net2 }, st.write r.tr_prms_addr net2.tr_prms)

/-- The checkpoint at reference level: `get_init_params` returns the very
`training_params` object the network holds (the same address), not a
copy. -/
structure CheckpointRef where
  layers : List LayerSpec
  training_params : Addr
  allwts : List WtGroup

/-- Reference-level `get_init_params`. -/
def getInitParamsRef (r : NeuralNetRef) : CheckpointRef :=
  { layers := r.core.layers, training_params := r.tr_prms_addr,
    allwts := r.core.tr_layers.map LayerInstance.saved }

/-- A concrete layer implementation, used to instantiate the
universally-quantified theorems on executable witness networks. -/
def trivialImpl : LayerImpl :=
  { shape := fun _ => (1, 2, 3),
    initWts := fun _ => [5, 6],
    initCenters := fun _ => 9,
    slot2 := fun _ _ => 0,
    getUpdates := fun _ _ _ => [] }

/-- Concrete training parameters for the witness networks. -/
def exParams : TrParms :=
  { SEED := 7, BATCH_SZ := 2, INIT_LEARNING_RATE := 3,
    EPOCHS_TO_HALF_RATE := 4, CUR_EPOCH := none }

/-- Fallback network value for the witness extraction matches (never
reached on the witness inputs, whose builds succeed). -/
def dummyNet : NeuralNet :=
  { rand_gen := none, tr_prms := exParams, layers := [], allwts := none,
    tr_layers := [], te_layers := [], batch_sz := 0, num_layers := 0,
    aux_inpt_tr := none, aux_inpt_te := none, cur_learn_rate := 0 }

/-- The pure effect of `inc_epoch_set_rate` on the training-parameter
mapping: `CUR_EPOCH += 1`. -/
def stepPrms (p : TrParms) : TrParms :=
  { p with CUR_EPOCH := some (p.curEpochVal + 1) }

/-- The number of auxiliary-input-declaring layers in a chain. -/
def countAux (ls : List LayerInstance) : Nat :=
  ls.countP (fun l => l.tag == "AuxConcatLayer" || l.tag == "SoftAuxLayer")

/-- Witness network: a one-layer input-only network built fresh from
`exParams` (so `CUR_EPOCH` is the inserted `0`). -/
def exNet4 : NeuralNet :=
  match NeuralNet.build trivialImpl [("InputLayer", 1)] exParams none with
  | Except.ok n => n
  | Except.error _ => dummyNet

/-- Fallback compiled step for the witness extraction matches. -/
def dummyStep : CompiledStep :=
  { batch_sz := 0, x_sym := SymT.x, x_data := [], y_data := [],
    aux_sym := none, aux_data := none, updates := [] }

/-- Witness network with an auxiliary input (input layer followed by an
auxiliary-concatenation layer). -/
def exNetAux : NeuralNet :=
  match NeuralNet.build trivialImpl [("InputLayer", 1), ("AuxConcatLayer", 2)]
      exParams none with
  | Except.ok n => n
  | Except.error _ => dummyNet

/-- Witness datasets (three batches of size two). -/
def exXs : List Data := [10, 11, 12, 13, 14, 15]

/-- Witness label dataset. -/
def exYs : List Data := [20, 21, 22, 23, 24, 25]

/-- Witness compiled train-step function on `exNet4`. -/
def exM3 : CompiledStep :=
  match NeuralNet.get_trin_model trivialImpl exNet4 exXs exYs none with
  | Except.ok m => m
  | Except.error _ => dummyStep

/-- Witness compiled test-step function on `exNet4`. -/
def exMt3 : CompiledStep :=
  match NeuralNet.get_test_model exNet4 exXs exYs none with
  | Except.ok m => m
  | Except.error _ => dummyStep

/-- Witness runtime state for the read-only test-step claim. -/
def exRun : RunState :=
  { wts := [[1, 2], [3]], tr_prms := exParams, cur_learn_rate := 1 }

/-- Witness heap: every address holds the example parameter mapping
(no `CUR_EPOCH` key). -/
def exStore : Store := fun _ => exParams

/-- Witness reference-level construction at address 0. -/
def exRefPair : NeuralNetRef × Store :=
  match buildRef trivialImpl [("InputLayer", 1)] 0 exStore none with
  | Except.ok pr => pr
  | Except.error _ => ({ core := dummyNet, tr_prms_addr := 0 }, exStore)

/-- Witness mid-assembly state: two layers (input, dropout) already built
out of a three-spec list whose next spec is a convolution layer. -/
def exS1 : NeuralNet :=
  { (match NeuralNet.buildLayersStage trivialImpl
        [("InputLayer", 0), ("DropOutLayer", 0)] exParams none with
     | Except.ok s => s
     | Except.error _ => dummyNet) with
    layers := [("InputLayer", 0), ("DropOutLayer", 0), ("ConvLayer", 0)] }

/-- The input-layer instance of `exS1`. -/
def exInpL : LayerInstance :=
  mkLayer trivialImpl "InputLayer" (CtorCall.inputL SymT.x 0) [] 0

/-- The dropout-layer instance of `exS1`. -/
def exDropL : LayerInstance :=
  mkLayer trivialImpl "DropOutLayer"
    (CtorCall.dropOut (SymT.out true 0) (some 7) 3 0) [] 1

/-- The layer `exS1`'s next append step constructs, with its test input. -/
def exL1pair : LayerInstance × SymT :=
  match exS1.next_layer_and_te trivialImpl with
  | Except.ok r => r
  | Except.error _ => (exInpL, SymT.x)

/-- Invariant of checkpoint-based assembly (a full `WeightSet` was
supplied): no generator exists, no constructor receives one, every
weight-accepting constructor at position `i` received weight group `i`
verbatim, and every centered-output constructor received the split of
group `i` (first two entries as hidden weights, entry 3 as centers). -/
def WtsInv (l : List WtGroup) (s : NeuralNet) : Prop :=
  s.allwts = some l ∧ s.rand_gen = none ∧
  s.tr_layers.length = s.num_layers ∧
  ∀ i L, s.tr_layers.get? i = some L →
    L.ctor.randArg = none ∧
    (L.tag ≠ "CenteredOutLayer" → ∀ w0, L.ctor.wtsArg = some w0 → w0 = l.get? i) ∧
    (L.tag = "CenteredOutLayer" → ∀ g, l.get? i = some g → g ≠ [] →
      L.ctor.wtsArg = some (some (g.take 2)) ∧ L.ctor.centersArg = g.get? 3)

/-- Invariant of fresh assembly (no `WeightSet`): every centered-output
constructor received `None` centers. -/
def NoWtsInv (s : NeuralNet) : Prop :=
  s.allwts = none ∧
  ∀ L, L ∈ s.tr_layers → L.tag = "CenteredOutLayer" → L.ctor.centersArg = none

/-- Witness weight set for the checkpoint-construction claim. -/
def exAllwts : List WtGroup := [[], [10], [1, 2, 3, 4]]

/-- Witness network built from a supplied weight set, ending in a
centered-output layer. -/
def exNetW : NeuralNet :=
  match NeuralNet.build trivialImpl
      [("InputLayer", 0), ("HiddenLayer", 1), ("CenteredOutLayer", 2)]
      exParams (some exAllwts) with
  | Except.ok n => n
  | Except.error _ => dummyNet

/-- The centered-output instance of `exNetW`. -/
def exCentL : LayerInstance := (exNetW.tr_layers.get? 2).getD exInpL

/-- The hidden-layer instance of `exNetW`. -/
def exHidL : LayerInstance := (exNetW.tr_layers.get? 1).getD exInpL

/-- Witness assembled chains with two auxiliary-input layers. -/
def exS2aux : NeuralNet :=
  match NeuralNet.buildLayersStage trivialImpl
      [("InputLayer", 0), ("AuxConcatLayer", 1), ("SoftAuxLayer", 2)]
      exParams none with
  | Except.ok s => s
  | Except.error _ => dummyNet

/-- The auxiliary-concatenation instance of `exNetAux`. -/
def exAuxL : LayerInstance := (exNetAux.tr_layers.get? 1).getD exInpL

/-- The test-mode auxiliary-concatenation instance of `exNetAux`. -/
def exAuxLte : LayerInstance := (exNetAux.te_layers.get? 1).getD exInpL

/-- Matching relation between an original assembly state and the
checkpoint-rebuild state: same specs, counter and batch size,
observationally identical chains, A-side chains of full length, and
every centered-output instance on the B side took its centers from
entry 3 of the corresponding A-side instance's saved group. -/
def StateMatch (sA sB : NeuralNet) : Prop :=
  sB.layers = sA.layers ∧ sB.num_layers = sA.num_layers ∧
  sB.batch_sz = sA.batch_sz ∧
  sB.tr_layers.map LayerInstance.obs = sA.tr_layers.map LayerInstance.obs ∧
  sB.te_layers.map LayerInstance.obs = sA.te_layers.map LayerInstance.obs ∧
  sA.tr_layers.length = sA.num_layers ∧
  sA.te_layers.length = sA.num_layers ∧
  (∀ i LB, sB.tr_layers.get? i = some LB → LB.tag = "CenteredOutLayer" →
    ∃ LA, sA.tr_layers.get? i = some LA ∧
      LB.ctor.centersArg = LA.saved.get? 3)

/-- The checkpoint-rebuild of the witness network `exNetW`. -/
def exNetB : NeuralNet :=
  match NeuralNet.build trivialImpl exNetW.get_init_params.layers
      exNetW.get_init_params.training_params
      (some exNetW.get_init_params.allwts) with
  | Except.ok n => n
  | Except.error _ => dummyNet

theorem next_layer_ok (impl : LayerImpl) (s : NeuralNet) (L : LayerInstance) (te2 : SymT)
    (h : s.next_layer_and_te impl = Except.ok (L, te2)) :
    ∃ t a prev prevTe w,
      s.layers.get? s.num_layers = some (t, a) ∧
      s.tr_layers.get? (s.num_layers - 1) = some prev ∧
      s.te_layers.get? (s.num_layers - 1) = some prevTe ∧
      s.wtsOf = Except.ok w ∧
      ((t = "ConvLayer" ∧ ∃ u, s.shapeSrc prev = Except.ok u ∧
          L = mkWtLayer impl t (CtorCall.conv prev.output w s.rand_gen s.batch_sz
                u.num_maps u.out_sz a) w s.num_layers ∧
          te2 = prevTe.output)
       ∨ ((t = "PoolLayer" ∨ t = "MeanLayer") ∧ ∃ u, s.shapeSrc prev = Except.ok u ∧
          L = mkLayer impl t (CtorCall.pool t prev.output u.num_maps u.out_sz a) [] s.num_layers ∧
          te2 = prevTe.output)
       ∨ (t = "DropOutLayer" ∧
          L = mkLayer impl t (CtorCall.dropOut prev.output s.rand_gen prev.n_out a) [] s.num_layers ∧
          te2 = prevTe.output)
       ∨ ((t = "AuxConcatLayer" ∨ t = "HiddenLayer" ∨ t = "SoftmaxLayer"
            ∨ t = "SoftAuxLayer" ∨ t = "SVMLayer") ∧
          L = mkWtLayer impl t (CtorCall.fullConn t (SymT.flatten2 prev.output) w s.rand_gen
                prev.n_out a) w s.num_layers ∧
          te2 = SymT.flatten2 prevTe.output)
       ∨ (t = "CenteredOutLayer" ∧ ∃ w2 c, centSplit w = Except.ok (w2, c) ∧
          L = mkCenteredLayer impl (SymT.flatten2 prev.output) w2 c s.rand_gen
                prev.n_out a s.num_layers ∧
          te2 = SymT.flatten2 prevTe.output)) := by
  unfold NeuralNet.next_layer_and_te at h
  split at h
  · exact absurd h (by simp)
  rename_i ta t a hspec
  split at h
  · exact absurd h (by simp)
  rename_i prev hprev
  split at h
  · exact absurd h (by simp)
  rename_i prevTe hprevTe
  split at h
  · exact absurd h (by simp)
  rename_i w hw
  refine ⟨t, a, prev, prevTe, w, hspec, hprev, hprevTe, hw, ?_⟩
  split at h
  · rename_i h1
    split at h
    · exact absurd h (by simp)
    rename_i u hu
    split at h
    · rename_i h2
      injection h with h'
      injection h' with hL hte
      exact Or.inl ⟨h2, u, hu, hL.symm, hte.symm⟩
    · rename_i h2
      injection h with h'
      injection h' with hL hte
      refine Or.inr (Or.inl ⟨?_, u, hu, hL.symm, hte.symm⟩)
      rcases h1 with h1 | h1 | h1
      · exact absurd h1 h2
      · exact Or.inl h1
      · exact Or.inr h1
  split at h
  · rename_i h1 h2
    injection h with h'
    injection h' with hL hte
    exact Or.inr (Or.inr (Or.inl ⟨h2, hL.symm, hte.symm⟩))
  split at h
  · rename_i h1 h2 h3
    injection h with h'
    injection h' with hL hte
    exact Or.inr (Or.inr (Or.inr (Or.inl ⟨h3, hL.symm, hte.symm⟩)))
  split at h
  · rename_i h1 h2 h3 h4
    split at h
    · exact absurd h (by simp)
    rename_i sp hsp
    injection h with h'
    injection h' with hL hte
    exact Or.inr (Or.inr (Or.inr (Or.inr
      ⟨h4, sp.1, sp.2, (by simpa using hsp), hL.symm, hte.symm⟩)))
  · exact absurd h (by simp)

theorem append_ok (impl : LayerImpl) (s s' : NeuralNet)
    (h : NeuralNet.append_next_layer impl s = Except.ok s') :
    ∃ L te2, s.next_layer_and_te impl = Except.ok (L, te2) ∧ s' = s.pushLayer L te2 := by
  unfold NeuralNet.append_next_layer at h
  split at h
  · rename_i r hr
    injection h with h'
    exact ⟨r.1, r.2, by simpa using hr, h'.symm⟩
  · exact absurd h (by simp)

@[simp] theorem pushLayer_layers (s : NeuralNet) (c : LayerInstance) (t : SymT) :
    (s.pushLayer c t).layers = s.layers := rfl

@[simp] theorem pushLayer_tr_prms (s : NeuralNet) (c : LayerInstance) (t : SymT) :
    (s.pushLayer c t).tr_prms = s.tr_prms := rfl

@[simp] theorem pushLayer_allwts (s : NeuralNet) (c : LayerInstance) (t : SymT) :
    (s.pushLayer c t).allwts = s.allwts := rfl

@[simp] theorem pushLayer_rand_gen (s : NeuralNet) (c : LayerInstance) (t : SymT) :
    (s.pushLayer c t).rand_gen = s.rand_gen := rfl

@[simp] theorem pushLayer_batch_sz (s : NeuralNet) (c : LayerInstance) (t : SymT) :
    (s.pushLayer c t).batch_sz = s.batch_sz := rfl

@[simp] theorem pushLayer_aux_tr (s : NeuralNet) (c : LayerInstance) (t : SymT) :
    (s.pushLayer c t).aux_inpt_tr = s.aux_inpt_tr := rfl

@[simp] theorem pushLayer_aux_te (s : NeuralNet) (c : LayerInstance) (t : SymT) :
    (s.pushLayer c t).aux_inpt_te = s.aux_inpt_te := rfl

@[simp] theorem pushLayer_num_layers (s : NeuralNet) (c : LayerInstance) (t : SymT) :
    (s.pushLayer c t).num_layers = s.num_layers + 1 := rfl

@[simp] theorem pushLayer_tr_layers (s : NeuralNet) (c : LayerInstance) (t : SymT) :
    (s.pushLayer c t).tr_layers = s.tr_layers ++ [c] := rfl

@[simp] theorem pushLayer_te_layers (s : NeuralNet) (c : LayerInstance) (t : SymT) :
    (s.pushLayer c t).te_layers = s.te_layers ++ [TestVersion c t s.num_layers] := rfl

/-- Induction principle for the layer-appending loop: any property
preserved by one successful `append_next_layer` step holds of the loop
result. -/
theorem buildLoop_ind (impl : LayerImpl) (P : NeuralNet → Prop)
    (hstep : ∀ s s', P s → NeuralNet.append_next_layer impl s = Except.ok s' → P s') :
    ∀ n s f, P s → buildLoop impl n s = Except.ok f → P f
  | 0, _, _, hP, h => by injection h with h'; exact h' ▸ hP
  | Nat.succ n, s, f, hP, h => by
    unfold buildLoop at h
    split at h
    · rename_i s2 hs2
      exact buildLoop_ind impl P hstep n s2 f (hstep s s2 hP hs2) h
    · exact absurd h (by simp)

/-- One append step preserves every field of the state except the layer
chains and the counter, appends exactly one train layer and its test
version, and advances the counter by one. -/
theorem append_preserves (impl : LayerImpl) (s s' : NeuralNet)
    (h : NeuralNet.append_next_layer impl s = Except.ok s') :
    s'.layers = s.layers ∧ s'.tr_prms = s.tr_prms ∧ s'.allwts = s.allwts ∧
    s'.rand_gen = s.rand_gen ∧ s'.batch_sz = s.batch_sz ∧
    s'.aux_inpt_tr = s.aux_inpt_tr ∧ s'.aux_inpt_te = s.aux_inpt_te ∧
    s'.num_layers = s.num_layers + 1 ∧
    ∃ L te2, s'.tr_layers = s.tr_layers ++ [L] ∧
      s'.te_layers = s.te_layers ++ [TestVersion L te2 s.num_layers] := by
  obtain ⟨L, te2, _, rfl⟩ := append_ok impl s s' h
  exact ⟨rfl, rfl, rfl, rfl, rfl, rfl, rfl, rfl, L, te2, rfl, rfl⟩

/-- The loop only appends: the result's chains extend the start state's
chains, and all other fields except the counter are preserved. -/
theorem buildLoop_preserves (impl : LayerImpl) :
    ∀ n s f, buildLoop impl n s = Except.ok f →
    f.layers = s.layers ∧ f.tr_prms = s.tr_prms ∧ f.allwts = s.allwts ∧
    f.rand_gen = s.rand_gen ∧ f.batch_sz = s.batch_sz ∧
    f.aux_inpt_tr = s.aux_inpt_tr ∧ f.aux_inpt_te = s.aux_inpt_te ∧
    ∃ tl el, f.tr_layers = s.tr_layers ++ tl ∧ f.te_layers = s.te_layers ++ el := by
  intro n
  induction n with
  | zero =>
    intro s f h
    injection h with h'
    subst h'
    exact ⟨rfl, rfl, rfl, rfl, rfl, rfl, rfl, [], [], by simp, by simp⟩
  | succ n ih =>
    intro s f h
    unfold buildLoop at h
    split at h
    · rename_i s2 hs2
      obtain ⟨h1, h2, h3, h4, h5, h6, h7, _, L, te2, htr, hte⟩ :=
        append_preserves impl s s2 hs2
      obtain ⟨g1, g2, g3, g4, g5, g6, g7, tl, el, gtr, gte⟩ := ih s2 f h
      refine ⟨g1.trans h1, g2.trans h2, g3.trans h3, g4.trans h4, g5.trans h5,
        g6.trans h6, g7.trans h7, [L] ++ tl, [TestVersion L te2 s.num_layers] ++ el, ?_, ?_⟩
      · rw [gtr, htr]; simp
      · rw [gte, hte]; simp
    · exact absurd h (by simp)

/-- Both layer chains always have exactly `num_layers` entries. -/
def ChainsWF (s : NeuralNet) : Prop :=
  s.tr_layers.length = s.num_layers ∧ s.te_layers.length = s.num_layers

theorem append_wf (impl : LayerImpl) (s s' : NeuralNet)
    (hwf : ChainsWF s) (h : NeuralNet.append_next_layer impl s = Except.ok s') :
    ChainsWF s' := by
  obtain ⟨L, te2, _, rfl⟩ := append_ok impl s s' h
  exact ⟨by simp [hwf.1], by simp [hwf.2]⟩

/-- The loop advances the layer counter by exactly its fuel. -/
theorem buildLoop_count (impl : LayerImpl) :
    ∀ n s f, buildLoop impl n s = Except.ok f →
    f.num_layers = s.num_layers + n := by
  intro n
  induction n with
  | zero => intro s f hh; injection hh with hh'; simp [hh']
  | succ n ih =>
    intro s f hh
    unfold buildLoop at hh
    split at hh
    · rename_i s2 hs2
      have := ih s2 f hh
      have h8 := (append_preserves impl s s2 hs2).2.2.2.2.2.2.2.1
      omega
    · exact absurd hh (by simp)

/-- `buildLayersStage` success: the produced state keeps the supplied
specs, parameters and weights, has well-formed chains of full length,
starts with the input layer built from spec 0, and records the generator
choice (seeded exactly when no weights were supplied). -/
theorem buildLayersStage_ok (impl : LayerImpl) (layers : List LayerSpec)
    (p : TrParms) (aw : Option (List WtGroup)) (s1 : NeuralNet)
    (h : NeuralNet.buildLayersStage impl layers p aw = Except.ok s1) :
    s1.layers = layers ∧ s1.tr_prms = p ∧ s1.allwts = aw ∧
    s1.batch_sz = p.BATCH_SZ ∧ s1.rand_gen = randGenOf p aw ∧
    s1.aux_inpt_tr = none ∧ s1.aux_inpt_te = none ∧
    ChainsWF s1 ∧ s1.num_layers = layers.length ∧
    ∃ spec0, layers.get? 0 = some spec0 ∧
      (spec0.1 = "InputLayer" ∨ spec0.1 = "ElasticLayer") ∧
      ∃ rest, s1.tr_layers =
        mkLayer impl spec0.1 (CtorCall.inputL SymT.x spec0.2) [] 0 :: rest := by
  unfold NeuralNet.buildLayersStage at h
  split at h
  · exact absurd h (by simp)
  rename_i spec0 hspec0
  split at h
  · rename_i hfirst
    obtain ⟨h1, h2, h3, h4, h5, h6, h7, tl, el, htr, hte⟩ :=
      buildLoop_preserves impl (layers.length - 1) _ s1 h
    have hwf : ChainsWF s1 :=
      buildLoop_ind impl ChainsWF (fun s s' hP hstep => append_wf impl s s' hP hstep)
        (layers.length - 1) _ s1 ⟨rfl, rfl⟩ h
    have hlen0 : layers.length ≠ 0 := by
      intro hl
      rw [List.get?_eq_none.2 (by omega)] at hspec0
      cases hspec0
    have hcount : s1.num_layers = layers.length := by
      have := buildLoop_count impl (layers.length - 1) _ s1 h
      simp at this
      omega
    exact ⟨h1, h2, h3, h5, h4, h6, h7, hwf, hcount,
      spec0, hspec0, hfirst, tl, by simpa using htr⟩
  · exact absurd h (by simp)

/-- `build` success decomposed into its stages. -/
theorem build_ok (impl : LayerImpl) (layers : List LayerSpec)
    (p : TrParms) (aw : Option (List WtGroup)) (net : NeuralNet)
    (h : NeuralNet.build impl layers p aw = Except.ok net) :
    ∃ s1 auxr, NeuralNet.buildLayersStage impl layers p aw = Except.ok s1 ∧
      auxScan (s1.tr_layers.zip s1.te_layers) none = Except.ok auxr ∧
      net = NeuralNet.set_rate
        { s1 with aux_inpt_tr := auxFst auxr, aux_inpt_te := auxSnd auxr,
                  tr_prms := (if s1.tr_prms.CUR_EPOCH = none
                              then { s1.tr_prms with CUR_EPOCH := some 0 }
                              else s1.tr_prms),
                  cur_learn_rate := 0 } := by
  unfold NeuralNet.build at h
  split at h
  · exact absurd h (by simp)
  rename_i s1 hs1
  split at h
  · exact absurd h (by simp)
  rename_i auxr hauxr
  injection h with h'
  exact ⟨s1, auxr, hs1, hauxr, h'.symm⟩

theorem stepPrms_fields (q : TrParms) :
    (stepPrms q).INIT_LEARNING_RATE = q.INIT_LEARNING_RATE ∧
    (stepPrms q).EPOCHS_TO_HALF_RATE = q.EPOCHS_TO_HALF_RATE ∧
    (stepPrms q).curEpochVal = q.curEpochVal + 1 := by
  refine ⟨rfl, rfl, ?_⟩
  simp [stepPrms, TrParms.curEpochVal]

theorem stepPrms_iter_fields (p : TrParms) : ∀ n : Nat,
    (stepPrms^[n] p).INIT_LEARNING_RATE = p.INIT_LEARNING_RATE ∧
    (stepPrms^[n] p).EPOCHS_TO_HALF_RATE = p.EPOCHS_TO_HALF_RATE ∧
    (stepPrms^[n] p).curEpochVal = p.curEpochVal + n := by
  intro n
  induction n with
  | zero => simp
  | succ n ih =>
    rw [Function.iterate_succ_apply']
    refine ⟨(stepPrms_fields _).1.trans ih.1, (stepPrms_fields _).2.1.trans ih.2.1, ?_⟩
    rw [(stepPrms_fields _).2.2, ih.2.2]
    push_cast
    ring

theorem inc_tr_prms (x : NeuralNet) :
    (x.inc_epoch_set_rate).tr_prms = stepPrms x.tr_prms := rfl

theorem inc_rate (x : NeuralNet) :
    (x.inc_epoch_set_rate).cur_learn_rate = rateFormula (stepPrms x.tr_prms) := rfl

theorem iter_inc_tr_prms (net : NeuralNet) : ∀ n : Nat,
    (NeuralNet.inc_epoch_set_rate^[n] net.set_rate).tr_prms = stepPrms^[n] net.tr_prms := by
  intro n
  induction n with
  | zero => rfl
  | succ n ih =>
    rw [Function.iterate_succ_apply', Function.iterate_succ_apply', inc_tr_prms, ih]

theorem iter_inc_rate (net : NeuralNet) : ∀ n : Nat,
    (NeuralNet.inc_epoch_set_rate^[n] net.set_rate).cur_learn_rate =
      rateFormula (stepPrms^[n] net.tr_prms) := by
  intro n
  cases n with
  | zero => rfl
  | succ n =>
    rw [Function.iterate_succ_apply', inc_rate, Function.iterate_succ_apply',
      iter_inc_tr_prms]

theorem rateFormula_antitone (init h e e' : Rat) (hi : 0 ≤ init) (hh : 0 < h)
    (he : 0 ≤ e) (hee : e ≤ e') :
    init / (1 + e' / h) ≤ init / (1 + e / h) := by
  have h1 : (0:Rat) < 1 + e / h := by positivity
  gcongr

/-- C4: after `set_rate()` the learning-rate scalar equals
`INIT_LEARNING_RATE / (1 + CUR_EPOCH / EPOCHS_TO_HALF_RATE)`; it equals
`INIT_LEARNING_RATE` exactly at `CUR_EPOCH = 0` and
`INIT_LEARNING_RATE / 2` exactly at `CUR_EPOCH = EPOCHS_TO_HALF_RATE`;
`inc_epoch_set_rate` increments `CUR_EPOCH` by exactly 1 and recomputes
the scalar, and N successive calls yield a monotonically non-increasing
sequence of rates. -/
theorem claim4_learning_rate_schedule (net : NeuralNet)
    (hh : 0 < net.tr_prms.EPOCHS_TO_HALF_RATE)
    (hi : 0 ≤ net.tr_prms.INIT_LEARNING_RATE)
    (he : 0 ≤ net.tr_prms.curEpochVal) :
    (net.set_rate).cur_learn_rate =
      net.tr_prms.INIT_LEARNING_RATE /
        (1 + net.tr_prms.curEpochVal / net.tr_prms.EPOCHS_TO_HALF_RATE) ∧
    (net.tr_prms.curEpochVal = 0 →
      (net.set_rate).cur_learn_rate = net.tr_prms.INIT_LEARNING_RATE) ∧
    (net.tr_prms.curEpochVal = net.tr_prms.EPOCHS_TO_HALF_RATE →
      (net.set_rate).cur_learn_rate = net.tr_prms.INIT_LEARNING_RATE / 2) ∧
    (net.inc_epoch_set_rate.get_epoch = net.get_epoch + 1) ∧
    (net.inc_epoch_set_rate.cur_learn_rate =
      rateFormula net.inc_epoch_set_rate.tr_prms) ∧
    (∀ n : Nat,
      (NeuralNet.inc_epoch_set_rate^[n + 1] net.set_rate).cur_learn_rate ≤
      (NeuralNet.inc_epoch_set_rate^[n] net.set_rate).cur_learn_rate) := by
  refine ⟨rfl, ?_, ?_, ?_, ?_, ?_⟩
  · intro h0
    show rateFormula net.tr_prms = _
    rw [rateFormula, h0, zero_div, add_zero, div_one]
  · intro hhalf
    show rateFormula net.tr_prms = _
    rw [rateFormula, hhalf, div_self (ne_of_gt hh), one_add_one_eq_two]
  · show (stepPrms net.tr_prms).curEpochVal = _
    exact (stepPrms_fields net.tr_prms).2.2
  · rw [inc_rate, inc_tr_prms]
  · intro n
    rw [iter_inc_rate, iter_inc_rate, rateFormula, rateFormula]
    obtain ⟨i1, i2, i3⟩ := stepPrms_iter_fields net.tr_prms n
    obtain ⟨j1, j2, j3⟩ := stepPrms_iter_fields net.tr_prms (n + 1)
    rw [i1, i2, i3, j1, j2, j3]
    refine rateFormula_antitone _ _ _ _ hi hh (by positivity) ?_
    push_cast
    linarith

/-- C4 witness at a concrete network (fresh build, `CUR_EPOCH = 0`,
`INIT_LEARNING_RATE = 3`, `EPOCHS_TO_HALF_RATE = 4`). -/
theorem claim4_witness :
    (exNet4.set_rate).cur_learn_rate = exNet4.tr_prms.INIT_LEARNING_RATE ∧
    exNet4.inc_epoch_set_rate.get_epoch = exNet4.get_epoch + 1 :=
  ⟨(claim4_learning_rate_schedule exNet4 (by decide) (by decide) (by decide)).2.1
      (by decide),
   (claim4_learning_rate_schedule exNet4 (by decide) (by decide) (by decide)).2.2.2.1⟩

/-- A first spec that is neither `InputLayer` nor `ElasticLayer` makes the
assembler stage fail the first-layer `assert` before building anything. -/
theorem buildLayersStage_config_error (impl : LayerImpl)
    (layers : List LayerSpec) (p : TrParms) (aw : Option (List WtGroup))
    (t : String) (a : LayerArgs) (h0 : layers.get? 0 = some (t, a))
    (ht1 : t ≠ "InputLayer") (ht2 : t ≠ "ElasticLayer") :
    NeuralNet.buildLayersStage impl layers p aw =
      Except.error NetError.configurationError := by
  unfold NeuralNet.buildLayersStage
  rw [h0]
  exact if_neg (by simp [ht1, ht2])

/-- C7: constructing a network whose first spec's type-tag is not
`InputLayer` or `ElasticLayer` (for example a hidden or softmax layer
first) fails with the configuration error; no layer instance is built
(the whole construction returns the error and no network). -/
theorem claim7_first_layer_validation (impl : LayerImpl)
    (layers : List LayerSpec) (p : TrParms) (aw : Option (List WtGroup))
    (t : String) (a : LayerArgs) (h0 : layers.get? 0 = some (t, a))
    (ht1 : t ≠ "InputLayer") (ht2 : t ≠ "ElasticLayer") :
    NeuralNet.build impl layers p aw = Except.error NetError.configurationError := by
  unfold NeuralNet.build
  rw [buildLayersStage_config_error impl layers p aw t a h0 ht1 ht2]

/-- C7 witness: a sequence starting with a hidden layer (and another with a
softmax layer) is rejected. -/
theorem claim7_witness :
    NeuralNet.build trivialImpl [("HiddenLayer", 0), ("SoftmaxLayer", 0)] exParams none
      = Except.error NetError.configurationError ∧
    NeuralNet.build trivialImpl [("SoftmaxLayer", 0)] exParams none
      = Except.error NetError.configurationError :=
  ⟨claim7_first_layer_validation trivialImpl _ exParams none "HiddenLayer" 0
      rfl (by decide) (by decide),
   claim7_first_layer_validation trivialImpl _ exParams none "SoftmaxLayer" 0
      rfl (by decide) (by decide)⟩

theorem pySlice_get (xs : List Data) (a n k : Nat) :
    (pySlice xs a (a + n))[k]? = if k < n then xs[a + k]? else none := by
  unfold pySlice
  rw [Nat.add_sub_cancel_left]
  rcases Nat.lt_or_ge k n with hk | hk
  · rw [if_pos hk, List.getElem?_take_of_lt hk, List.getElem?_drop]
  · rw [if_neg (by omega), List.getElem?_eq_none]
    simp only [List.length_take, List.length_drop]
    omega

/-- Field characterization of a successfully compiled train-step function. -/
theorem get_trin_model_ok (impl : LayerImpl) (net : NeuralNet)
    (x_data y_data : List Data) (aux_data : Option (List Data)) (m : CompiledStep)
    (hb : NeuralNet.get_trin_model impl net x_data y_data aux_data = Except.ok m) :
    m.batch_sz = net.tr_prms.BATCH_SZ ∧ m.x_sym = SymT.x ∧
    m.x_data = x_data ∧ m.y_data = y_data ∧
    m.aux_sym = net.aux_inpt_tr ∧
    m.aux_data = (if net.aux_inpt_tr.isSome then aux_data else none) ∧
    m.updates = trainUpdates impl net := by
  unfold NeuralNet.get_trin_model at hb
  split at hb
  · rename_i haux
    split at hb
    · exact absurd hb (by simp)
    · injection hb with hb'
      subst hb'
      exact ⟨rfl, rfl, rfl, rfl, rfl, by rw [if_pos haux], rfl⟩
  · rename_i haux
    injection hb with hb'
    subst hb'
    refine ⟨rfl, rfl, rfl, rfl, ?_, by rw [if_neg haux], rfl⟩
    exact (Option.not_isSome_iff_eq_none.1 haux).symm

/-- Field characterization of a successfully compiled test-step function. -/
theorem get_test_model_ok (net : NeuralNet)
    (x_data y_data : List Data) (aux_data : Option (List Data)) (m : CompiledStep)
    (hb : NeuralNet.get_test_model net x_data y_data aux_data = Except.ok m) :
    m.batch_sz = net.tr_prms.BATCH_SZ ∧ m.x_sym = SymT.test_x ∧
    m.x_data = x_data ∧ m.y_data = y_data ∧
    m.aux_sym = net.aux_inpt_te ∧
    m.aux_data = (if net.aux_inpt_te.isSome then aux_data else none) ∧
    m.updates = [] := by
  unfold NeuralNet.get_test_model at hb
  split at hb
  · rename_i haux
    split at hb
    · exact absurd hb (by simp)
    · injection hb with hb'
      subst hb'
      exact ⟨rfl, rfl, rfl, rfl, rfl, by rw [if_pos haux], rfl⟩
  · rename_i haux
    injection hb with hb'
    subst hb'
    refine ⟨rfl, rfl, rfl, rfl, ?_, by rw [if_neg haux], rfl⟩
    exact (Option.not_isSome_iff_eq_none.1 haux).symm

/-- C5: on a network that declared an auxiliary input, requesting the
train-step or test-step function without auxiliary data fails
synchronously with the missing-auxiliary-data error — the request
returns the error itself, so no compiled function is produced and
nothing is recovered internally. -/
theorem claim5_missing_auxiliary_data (impl : LayerImpl) (net : NeuralNet)
    (x_data y_data : List Data) :
    (net.aux_inpt_tr.isSome →
      NeuralNet.get_trin_model impl net x_data y_data none =
        Except.error NetError.missingAuxiliaryData) ∧
    (net.aux_inpt_te.isSome →
      NeuralNet.get_test_model net x_data y_data none =
        Except.error NetError.missingAuxiliaryData) := by
  constructor
  · intro h
    unfold NeuralNet.get_trin_model
    rw [if_pos h]
  · intro h
    unfold NeuralNet.get_test_model
    rw [if_pos h]

/-- C5 witness: on the concrete auxiliary-input network, both requests
without auxiliary data fail with the error. -/
theorem claim5_witness :
    NeuralNet.get_trin_model trivialImpl exNetAux exXs exYs none =
      Except.error NetError.missingAuxiliaryData ∧
    NeuralNet.get_test_model exNetAux exXs exYs none =
      Except.error NetError.missingAuxiliaryData :=
  ⟨(claim5_missing_auxiliary_data trivialImpl exNetAux exXs exYs).1 (by decide),
   (claim5_missing_auxiliary_data trivialImpl exNetAux exXs exYs).2 (by decide)⟩

/-- C9: the compiled test-step function is compiled with an empty update
set; invoking it on any batch index leaves every layer weight tensor,
`CUR_EPOCH` and the learning-rate scalar unchanged. -/
theorem claim9_test_step_read_only (net : NeuralNet)
    (x_data y_data : List Data) (aux_data : Option (List Data)) (m : CompiledStep)
    (hb : NeuralNet.get_test_model net x_data y_data aux_data = Except.ok m) :
    m.updates = [] ∧
    (∀ (i : Nat) (s : RunState), m.run i s = s) ∧
    (∀ (i : Nat) (s : RunState),
      (m.run i s).wts = s.wts ∧
      (m.run i s).tr_prms.curEpochVal = s.tr_prms.curEpochVal ∧
      (m.run i s).cur_learn_rate = s.cur_learn_rate) := by
  have hupd : m.updates = [] :=
    (get_test_model_ok net x_data y_data aux_data m hb).2.2.2.2.2.2
  have hrun : ∀ (i : Nat) (s : RunState), m.run i s = s := by
    intro i s
    unfold CompiledStep.run
    rw [hupd]
    rfl
  exact ⟨hupd, hrun, fun i s => by rw [hrun i s]; exact ⟨rfl, rfl, rfl⟩⟩

/-- C9 witness: the concrete compiled test step mutates nothing. -/
theorem claim9_witness :
    exMt3.updates = [] ∧ exMt3.run 0 exRun = exRun :=
  ⟨(claim9_test_step_read_only exNet4 exXs exYs none exMt3 rfl).1,
   (claim9_test_step_read_only exNet4 exXs exYs none exMt3 rfl).2.1 0 exRun⟩

/-- C3: for every batch index `i`, the compiled train-step function binds
its input and label tensors to exactly the half-open slice
`[i*BATCH_SZ, (i+1)*BATCH_SZ)` of the caller-supplied datasets (plus the
auxiliary dataset when the network bound one), and the compiled
test-step function binds its input, label and auxiliary tensors with
the same slice rule; the final conjunct characterizes the bound slice
element-by-element as exactly the dataset entries with indices in
`[i*BATCH_SZ, (i+1)*BATCH_SZ)`. -/
theorem claim3_batch_slicing (impl : LayerImpl) (net : NeuralNet)
    (x_data y_data : List Data) (aux_data : Option (List Data)) (m mt : CompiledStep)
    (hm : NeuralNet.get_trin_model impl net x_data y_data aux_data = Except.ok m)
    (hmt : NeuralNet.get_test_model net x_data y_data aux_data = Except.ok mt) :
    (∀ i : Nat, m.givensAt i =
      [(SymT.x, pySlice x_data (i * net.tr_prms.BATCH_SZ) ((i + 1) * net.tr_prms.BATCH_SZ)),
       (SymT.y, pySlice y_data (i * net.tr_prms.BATCH_SZ) ((i + 1) * net.tr_prms.BATCH_SZ))]
      ++ (match net.aux_inpt_tr, (if net.aux_inpt_tr.isSome then aux_data else none) with
          | some s, some d =>
            [(s, pySlice d (i * net.tr_prms.BATCH_SZ) ((i + 1) * net.tr_prms.BATCH_SZ))]
          | _, _ => [])) ∧
    (∀ i : Nat, mt.givensAt i =
      [(SymT.test_x, pySlice x_data (i * net.tr_prms.BATCH_SZ) ((i + 1) * net.tr_prms.BATCH_SZ)),
       (SymT.y, pySlice y_data (i * net.tr_prms.BATCH_SZ) ((i + 1) * net.tr_prms.BATCH_SZ))]
      ++ (match net.aux_inpt_te, (if net.aux_inpt_te.isSome then aux_data else none) with
          | some s, some d =>
            [(s, pySlice d (i * net.tr_prms.BATCH_SZ) ((i + 1) * net.tr_prms.BATCH_SZ))]
          | _, _ => [])) ∧
    (∀ (ds : List Data) (i k : Nat),
      (pySlice ds (i * net.tr_prms.BATCH_SZ) ((i + 1) * net.tr_prms.BATCH_SZ))[k]? =
        if k < net.tr_prms.BATCH_SZ
        then ds[i * net.tr_prms.BATCH_SZ + k]? else none) := by
  obtain ⟨f1, f2, f3, f4, f5, f6, f7⟩ :=
    get_trin_model_ok impl net x_data y_data aux_data m hm
  obtain ⟨g1, g2, g3, g4, g5, g6, g7⟩ :=
    get_test_model_ok net x_data y_data aux_data mt hmt
  refine ⟨?_, ?_, ?_⟩
  · intro i
    unfold CompiledStep.givensAt
    rw [f1, f2, f3, f4, f5, f6]
  · intro i
    unfold CompiledStep.givensAt
    rw [g1, g2, g3, g4, g5, g6]
  · intro ds i k
    rw [Nat.succ_mul i net.tr_prms.BATCH_SZ]
    exact pySlice_get ds (i * net.tr_prms.BATCH_SZ) net.tr_prms.BATCH_SZ k

/-- C3 witness: on the concrete network (batch size 2) and sentinel
datasets, batch index 1 binds exactly elements 2 and 3, and batch index
2 of the test step binds exactly elements 4 and 5. -/
theorem claim3_witness :
    exM3.givensAt 1 = [(SymT.x, [12, 13]), (SymT.y, [22, 23])] ∧
    exMt3.givensAt 2 = [(SymT.test_x, [14, 15]), (SymT.y, [24, 25])] :=
  ⟨((claim3_batch_slicing trivialImpl exNet4 exXs exYs none exM3 exMt3 rfl rfl).1 1).trans
      (by decide),
   ((claim3_batch_slicing trivialImpl exNet4 exXs exYs none exM3 exMt3 rfl rfl).2.1 2).trans
      (by decide)⟩

/-- After a successful construction the stored mapping is the caller's one,
with `CUR_EPOCH` inserted as `0` exactly when it was absent. -/
theorem build_tr_prms (impl : LayerImpl) (layers : List LayerSpec)
    (p : TrParms) (aw : Option (List WtGroup)) (net : NeuralNet)
    (h : NeuralNet.build impl layers p aw = Except.ok net) :
    net.tr_prms =
      (if p.CUR_EPOCH = none then { p with CUR_EPOCH := some 0 } else p) := by
  obtain ⟨s1, auxr, hs1, hscan, hnet⟩ := build_ok impl layers p aw net h
  have hp := (buildLayersStage_ok impl layers p aw s1 hs1).2.1
  subst hnet
  show (if s1.tr_prms.CUR_EPOCH = none
        then { s1.tr_prms with CUR_EPOCH := some 0 } else s1.tr_prms) = _
  rw [hp]

/-- C10: the network aliases the caller's `training_params` mapping.
Construction inserts `CUR_EPOCH = 0` into the caller's own mapping when
absent (and touches no other mapping in the heap); the checkpoint from
`get_init_params` carries the same mapping (the same address, not a
copy); every `inc_epoch_set_rate` call increments `CUR_EPOCH` in place
through that same address. -/
theorem claim10_training_params_aliasing (impl : LayerImpl)
    (layers : List LayerSpec) (a : Addr) (st : Store) (aw : Option (List WtGroup))
    (r : NeuralNetRef) (st' : Store)
    (hb : buildRef impl layers a st aw = Except.ok (r, st')) :
    r.tr_prms_addr = a ∧
    ((st a).CUR_EPOCH = none → (st' a).CUR_EPOCH = some 0) ∧
    (∀ b : Addr, b ≠ a → st' b = st b) ∧
    (getInitParamsRef r).training_params = a ∧
    (∀ st2 : Store,
      ((incEpochRef r st2).2 r.tr_prms_addr).CUR_EPOCH =
        some ((st2 r.tr_prms_addr).curEpochVal + 1) ∧
      ∀ b : Addr, b ≠ r.tr_prms_addr → (incEpochRef r st2).2 b = st2 b) := by
  unfold buildRef at hb
  split at hb
  · rename_i net hnet
    injection hb with hb'
    injection hb' with h1 h2
    subst h1
    subst h2
    refine ⟨rfl, ?_, ?_, rfl, ?_⟩
    · intro hnone
      show ((Store.write st a net.tr_prms) a).CUR_EPOCH = some 0
      rw [Store.write, if_pos rfl, build_tr_prms impl layers (st a) aw net hnet,
        if_pos hnone]
    · intro b hne
      show Store.write st a net.tr_prms b = st b
      rw [Store.write, if_neg hne]
    · intro st2
      constructor
      · show (Store.write st2 _ _ _).CUR_EPOCH = _
        rw [Store.write, if_pos rfl]
        rfl
      · intro b hne
        show Store.write st2 _ _ b = st2 b
        rw [Store.write, if_neg hne]
  · exact absurd hb (by simp)

/-- C10 witness at the concrete heap: construction wrote `CUR_EPOCH = 0`
into the caller's mapping, the checkpoint aliases address 0, and an
epoch increment writes `CUR_EPOCH + 1` back through it. -/
theorem claim10_witness :
    (exRefPair.2 0).CUR_EPOCH = some 0 ∧
    (getInitParamsRef exRefPair.1).training_params = 0 ∧
    ((incEpochRef exRefPair.1 exRefPair.2).2 exRefPair.1.tr_prms_addr).CUR_EPOCH =
      some ((exRefPair.2 exRefPair.1.tr_prms_addr).curEpochVal + 1) := by
  have h := claim10_training_params_aliasing trivialImpl [("InputLayer", 1)] 0
    exStore none exRefPair.1 exRefPair.2 rfl
  exact ⟨h.2.1 rfl, h.2.2.2.1, (h.2.2.2.2 exRefPair.2).1⟩

@[simp] theorem mkLayer_ctor (impl : LayerImpl) (tag : String) (c : CtorCall)
    (saved : WtGroup) (idx : Nat) : (mkLayer impl tag c saved idx).ctor = c := rfl

@[simp] theorem mkWtLayer_ctor (impl : LayerImpl) (tag : String) (c : CtorCall)
    (w : Option WtGroup) (idx : Nat) : (mkWtLayer impl tag c w idx).ctor = c := rfl

@[simp] theorem mkCenteredLayer_ctor (impl : LayerImpl) (inpt : SymT)
    (w2 : Option WtGroup) (cen : Option Tensor) (rg : Option Nat) (nIn : Nat)
    (args : LayerArgs) (idx : Nat) :
    (mkCenteredLayer impl inpt w2 cen rg nIn args idx).ctor =
      CtorCall.centeredOut inpt w2 cen rg nIn args := rfl

/-- Characterization of the shape-metadata source selection. -/
theorem shapeSrc_ok (s : NeuralNet) (prev u : LayerInstance)
    (h : s.shapeSrc prev = Except.ok u) :
    (prev.tag = "DropOutLayer" ∧ s.tr_layers.get? (s.num_layers - 2) = some u) ∨
    (prev.tag ≠ "DropOutLayer" ∧ u = prev) := by
  unfold NeuralNet.shapeSrc at h
  split at h
  · rename_i hd
    split at h
    · rename_i l hl
      injection h with h'
      exact Or.inl ⟨hd, h' ▸ hl⟩
    · exact absurd h (by simp)
  · rename_i hd
    injection h with h'
    exact Or.inr ⟨hd, h'.symm⟩

/-- C1: when the appended spec is shape-consuming (convolution, pooling,
mean-pooling), the feature-map count and spatial size passed to its
constructor come from the instance at position `i-2` exactly when the
instance at `i-1` is a dropout layer (one single step back, whatever
kind of layer sits at `i-2`), and from the instance at `i-1` otherwise;
for every other successfully appended layer type no feature-map
count/spatial size is passed at all and the flat width passed is read
from the instance at `i-1`, dropout or not — the bypass applies to no
other layer type. -/
theorem claim1_dropout_shape_bypass (impl : LayerImpl) (s : NeuralNet)
    (t : String) (a : LayerArgs) (L : LayerInstance) (te2 : SymT)
    (hspec : s.layers.get? s.num_layers = some (t, a))
    (hres : s.next_layer_and_te impl = Except.ok (L, te2)) :
    ∃ prev, s.tr_layers.get? (s.num_layers - 1) = some prev ∧
      ((t = "ConvLayer" ∨ t = "PoolLayer" ∨ t = "MeanLayer") →
        ((prev.tag = "DropOutLayer" →
          ∃ prev2, s.tr_layers.get? (s.num_layers - 2) = some prev2 ∧
            L.ctor.shapeArgs = some (prev2.num_maps, prev2.out_sz)) ∧
         (prev.tag ≠ "DropOutLayer" →
            L.ctor.shapeArgs = some (prev.num_maps, prev.out_sz)))) ∧
      (¬(t = "ConvLayer" ∨ t = "PoolLayer" ∨ t = "MeanLayer") →
        L.ctor.shapeArgs = none ∧ L.ctor.prevWidth = some prev.n_out) := by
  obtain ⟨t', a', prev, prevTe, w, hspec', hprev, hprevTe, hw, hbr⟩ :=
    next_layer_ok impl s L te2 hres
  have hta : t' = t ∧ a' = a := by
    have := hspec.symm.trans hspec'
    injection this with h2
    exact ⟨congrArg Prod.fst h2.symm, congrArg Prod.snd h2.symm⟩
  obtain ⟨rfl, rfl⟩ := hta
  refine ⟨prev, hprev, ?_, ?_⟩
  · intro hshape
    rcases hbr with ⟨ht, u, hu, hL, _⟩ | ⟨ht, u, hu, hL, _⟩ | ⟨ht, hL, _⟩
      | ⟨ht, hL, _⟩ | ⟨ht, w2, c, hsp, hL, _⟩
    · subst hL
      rcases shapeSrc_ok s prev u hu with ⟨hd, h2⟩ | ⟨hd, rfl⟩
      · exact ⟨fun _ => ⟨u, h2, by simp [CtorCall.shapeArgs]⟩,
               fun hnd => absurd hd hnd⟩
      · exact ⟨fun hdd => absurd hdd hd, fun _ => by simp [CtorCall.shapeArgs]⟩
    · subst hL
      rcases shapeSrc_ok s prev u hu with ⟨hd, h2⟩ | ⟨hd, rfl⟩
      · exact ⟨fun _ => ⟨u, h2, by simp [CtorCall.shapeArgs]⟩,
               fun hnd => absurd hd hnd⟩
      · exact ⟨fun hdd => absurd hdd hd, fun _ => by simp [CtorCall.shapeArgs]⟩
    · exact absurd hshape (by subst ht; decide)
    · rcases ht with ht | ht | ht | ht | ht <;> exact absurd hshape (by subst ht; decide)
    · exact absurd hshape (by subst ht; decide)
  · intro hnshape
    rcases hbr with ⟨ht, _, _, _, _⟩ | ⟨ht, _, _, _, _⟩ | ⟨ht, hL, _⟩
      | ⟨ht, hL, _⟩ | ⟨ht, w2, c, hsp, hL, _⟩
    · exact absurd (Or.inl ht) hnshape
    · exact absurd (Or.inr ht) hnshape
    · subst hL
      exact ⟨by simp [CtorCall.shapeArgs], by simp [CtorCall.prevWidth]⟩
    · subst hL
      exact ⟨by simp [CtorCall.shapeArgs], by simp [CtorCall.prevWidth]⟩
    · subst hL
      exact ⟨by simp [CtorCall.shapeArgs], by simp [CtorCall.prevWidth]⟩

/-- C1 witness: in the concrete state whose previous layer is a dropout
layer, the new convolution layer's constructor receives the feature-map
count and spatial size of the layer before the dropout. -/
theorem claim1_witness : (exL1pair.1).ctor.shapeArgs = some (1, 2) := by
  obtain ⟨prev, hprev, hc, _⟩ :=
    claim1_dropout_shape_bypass trivialImpl exS1 "ConvLayer" 0 exL1pair.1 exL1pair.2
      (by decide) rfl
  have hprev2 : prev = exDropL :=
    (Option.some.inj (hprev.symm.trans
      (by decide : exS1.tr_layers.get? (exS1.num_layers - 1) = some exDropL)))
  obtain ⟨p2, hp2, hsh⟩ := (hc (Or.inl rfl)).1 (by rw [hprev2]; decide)
  have hp2' : p2 = exInpL :=
    (Option.some.inj (hp2.symm.trans
      (by decide : exS1.tr_layers.get? (exS1.num_layers - 2) = some exInpL)))
  rw [hsh, hp2']
  decide

@[simp] theorem mkLayer_tag (impl : LayerImpl) (tag : String) (c : CtorCall)
    (saved : WtGroup) (idx : Nat) : (mkLayer impl tag c saved idx).tag = tag := rfl

@[simp] theorem mkWtLayer_tag (impl : LayerImpl) (tag : String) (c : CtorCall)
    (w : Option WtGroup) (idx : Nat) : (mkWtLayer impl tag c w idx).tag = tag := rfl

@[simp] theorem mkCenteredLayer_tag (impl : LayerImpl) (inpt : SymT)
    (w2 : Option WtGroup) (cen : Option Tensor) (rg : Option Nat) (nIn : Nat)
    (args : LayerArgs) (idx : Nat) :
    (mkCenteredLayer impl inpt w2 cen rg nIn args idx).tag = "CenteredOutLayer" := rfl

/-- In checkpoint mode (`allwts = some l`, `l` nonempty) a successful
weight-group fetch returns exactly group `num_layers`. -/
theorem wtsOf_checkpoint (s : NeuralNet) (l : List WtGroup) (w : Option WtGroup)
    (hA : s.allwts = some l) (hl : l ≠ []) (hw : s.wtsOf = Except.ok w) :
    w = l.get? s.num_layers ∧ ∃ g, w = some g := by
  unfold NeuralNet.wtsOf at hw
  split at hw
  · rename_i l2 heq
    rw [hA] at heq
    injection heq with heq'
    subst heq'
    rw [if_neg hl] at hw
    split at hw
    · rename_i g hg
      injection hw with hw'
      exact ⟨hw'.symm.trans hg.symm, g, hw'.symm⟩
    · exact absurd hw (by simp)
  · rename_i heq
    rw [hA] at heq
    cases heq

/-- In fresh mode (`allwts = None`) the weight fetch yields `None`. -/
theorem wtsOf_fresh (s : NeuralNet) (hA : s.allwts = none) :
    s.wtsOf = Except.ok none := by
  unfold NeuralNet.wtsOf
  rw [hA]

/-- Successful split of a supplied nonempty centered-output weight group:
first two entries and entry 3. -/
theorem centSplit_some (g : WtGroup) (w2 : Option WtGroup) (c : Option Tensor)
    (hg : g ≠ []) (h : centSplit (some g) = Except.ok (w2, c)) :
    w2 = some (g.take 2) ∧ c = g.get? 3 ∧ ∃ cv, g.get? 3 = some cv := by
  unfold centSplit at h
  have h2 : (if g = [] then Except.ok ((some g : Option WtGroup), (none : Option Tensor))
      else match g.get? 3 with
        | some cv => Except.ok (some (g.take 2), some cv)
        | none => Except.error NetError.indexError) = Except.ok (w2, c) := h
  rw [if_neg hg] at h2
  split at h2
  · rename_i cv h3
    injection h2 with h2'
    injection h2' with ha hb
    exact ⟨ha.symm, hb.symm.trans h3.symm, cv, h3⟩
  · exact absurd h2 (by simp)

theorem append_WtsInv (impl : LayerImpl) (l : List WtGroup) (s s' : NeuralNet)
    (hl : l ≠ []) (hInv : WtsInv l s)
    (h : NeuralNet.append_next_layer impl s = Except.ok s') : WtsInv l s' := by
  obtain ⟨hA, hR, hLen, hAll⟩ := hInv
  obtain ⟨L, te2, hnx, rfl⟩ := append_ok impl s s' h
  obtain ⟨t, a, prev, prevTe, w, hspec, hprev, hprevTe, hw, hbr⟩ :=
    next_layer_ok impl s L te2 hnx
  obtain ⟨hwget, g0, hwg⟩ := wtsOf_checkpoint s l w hA hl hw
  refine ⟨by simpa using hA, by simpa using hR, by simp [hLen], ?_⟩
  intro i Li hi
  rcases Nat.lt_trichotomy i s.tr_layers.length with hlt | heq | hgt
  · rw [pushLayer_tr_layers, List.get?_append hlt] at hi
    exact hAll i Li hi
  · subst heq
    rw [pushLayer_tr_layers, List.get?_concat_length] at hi
    injection hi with hi'
    subst hi'
    rw [hLen]
    rcases hbr with ⟨ht, u, hu, hL, _⟩ | ⟨ht, u, hu, hL, _⟩ | ⟨ht, hL, _⟩
      | ⟨ht, hL, _⟩ | ⟨ht, w2, c, hsp, hL, _⟩
    · subst hL
      refine ⟨by simpa [CtorCall.randArg] using hR, ?_, ?_⟩
      · intro _ w0 hw0
        simp only [mkWtLayer_ctor, CtorCall.wtsArg] at hw0
        injection hw0 with hw0'
        exact hw0' ▸ hwget
      · intro hcent
        rw [mkWtLayer_tag] at hcent
        exact absurd hcent.symm (by subst ht; decide)
    · subst hL
      refine ⟨by simp [CtorCall.randArg], ?_, ?_⟩
      · intro _ w0 hw0
        simp only [mkLayer_ctor, CtorCall.wtsArg] at hw0
        exact absurd hw0 (by simp)
      · intro hcent
        rw [mkLayer_tag] at hcent
        rcases ht with ht | ht <;> exact absurd hcent.symm (by subst ht; decide)
    · subst hL
      refine ⟨by simpa [CtorCall.randArg] using hR, ?_, ?_⟩
      · intro _ w0 hw0
        simp only [mkLayer_ctor, CtorCall.wtsArg] at hw0
        exact absurd hw0 (by simp)
      · intro hcent
        rw [mkLayer_tag] at hcent
        exact absurd hcent.symm (by subst ht; decide)
    · subst hL
      refine ⟨by simpa [CtorCall.randArg] using hR, ?_, ?_⟩
      · intro _ w0 hw0
        simp only [mkWtLayer_ctor, CtorCall.wtsArg] at hw0
        injection hw0 with hw0'
        exact hw0' ▸ hwget
      · intro hcent
        rw [mkWtLayer_tag] at hcent
        rcases ht with ht | ht | ht | ht | ht <;>
          exact absurd hcent.symm (by subst ht; decide)
    · subst hL
      refine ⟨by simpa [CtorCall.randArg] using hR, ?_, ?_⟩
      · intro hne
        rw [mkCenteredLayer_tag] at hne
        exact absurd rfl hne
      · intro _ g hg hgne
        have hwsome : w = some g := by rw [hwget, hg]
        subst hwsome
        obtain ⟨h1, h2, _⟩ := centSplit_some g w2 c hgne hsp
        subst h1
        subst h2
        exact ⟨by simp [CtorCall.wtsArg], by simp [CtorCall.centersArg]⟩
  · rw [pushLayer_tr_layers, List.get?_append_right (by simpa using hgt.le)] at hi
    have : i - s.tr_layers.length ≠ 0 := by omega
    rcases Nat.exists_eq_succ_of_ne_zero this with ⟨j, hj⟩
    rw [hj] at hi
    exact absurd hi (by simp)

theorem append_NoWtsInv (impl : LayerImpl) (s s' : NeuralNet)
    (hInv : NoWtsInv s)
    (h : NeuralNet.append_next_layer impl s = Except.ok s') : NoWtsInv s' := by
  obtain ⟨hA, hAll⟩ := hInv
  obtain ⟨L, te2, hnx, rfl⟩ := append_ok impl s s' h
  obtain ⟨t, a, prev, prevTe, w, hspec, hprev, hprevTe, hw, hbr⟩ :=
    next_layer_ok impl s L te2 hnx
  have hwnone : w = none := by
    have := (wtsOf_fresh s hA).symm.trans hw
    injection this with h'
    exact h'.symm
  subst hwnone
  refine ⟨by simpa using hA, ?_⟩
  intro Li hmem hcent
  rw [pushLayer_tr_layers, List.mem_append] at hmem
  rcases hmem with hmem | hmem
  · exact hAll Li hmem hcent
  · rw [List.mem_singleton] at hmem
    subst hmem
    rcases hbr with ⟨ht, u, hu, hL, _⟩ | ⟨ht, u, hu, hL, _⟩ | ⟨ht, hL, _⟩
      | ⟨ht, hL, _⟩ | ⟨ht, w2, c, hsp, hL, _⟩
    · subst hL; rw [mkWtLayer_tag] at hcent; exact absurd hcent.symm (by subst ht; decide)
    · subst hL; rw [mkLayer_tag] at hcent
      rcases ht with ht | ht <;> exact absurd hcent.symm (by subst ht; decide)
    · subst hL; rw [mkLayer_tag] at hcent; exact absurd hcent.symm (by subst ht; decide)
    · subst hL; rw [mkWtLayer_tag] at hcent
      rcases ht with ht | ht | ht | ht | ht <;>
        exact absurd hcent.symm (by subst ht; decide)
    · subst hL
      have : centSplit none = Except.ok ((none : Option WtGroup), (none : Option Tensor)) := rfl
      rw [this] at hsp
      injection hsp with hsp'
      injection hsp' with h1 h2
      subst h1
      subst h2
      simp [CtorCall.centersArg]

/-- C2: with a full `WeightSet` supplied, no random generator is created
(`rand_gen` is `None` and the generator argument of every constructor
invocation is `None`); every weight-accepting constructor at position
`i` received weight group `i` verbatim; a centered-output constructor
received the group split: first two entries as hidden-transform weights
and entry at index 3 as class centers.  With no `WeightSet`, the
centers argument is `None`. -/
theorem claim2_weightset_construction (impl : LayerImpl) (layers : List LayerSpec)
    (p : TrParms) (l : List WtGroup) (hl : l ≠ []) :
    (∀ net, NeuralNet.build impl layers p (some l) = Except.ok net →
      net.rand_gen = none ∧
      (∀ L, L ∈ net.tr_layers → L.ctor.randArg = none) ∧
      (∀ i L, net.tr_layers.get? i = some L →
        (L.tag ≠ "CenteredOutLayer" →
          ∀ w0, L.ctor.wtsArg = some w0 → w0 = l.get? i) ∧
        (L.tag = "CenteredOutLayer" → ∀ g, l.get? i = some g → g ≠ [] →
          L.ctor.wtsArg = some (some (g.take 2)) ∧
          L.ctor.centersArg = g.get? 3))) ∧
    (∀ net, NeuralNet.build impl layers p none = Except.ok net →
      ∀ L, L ∈ net.tr_layers → L.tag = "CenteredOutLayer" →
        L.ctor.centersArg = none) := by
  constructor
  · intro net hb
    obtain ⟨s1, auxr, hs1, hscan, hnet⟩ := build_ok impl layers p (some l) net hb
    have hfields := buildLayersStage_ok impl layers p (some l) s1 hs1
    have hInv : WtsInv l s1 := by
      unfold NeuralNet.buildLayersStage at hs1
      split at hs1
      · exact absurd hs1 (by simp)
      rename_i spec0 hspec0
      split at hs1
      · rename_i hfirst
        refine buildLoop_ind impl (WtsInv l)
          (fun s s' hP hstep => append_WtsInv impl l s s' hl hP hstep)
          (layers.length - 1) _ s1 ?_ hs1
        refine ⟨rfl, rfl, rfl, ?_⟩
        intro i L hi
        cases i with
        | zero =>
          injection hi with hi'
          subst hi'
          refine ⟨by simp [CtorCall.randArg], ?_, ?_⟩
          · intro _ w0 hw0
            simp only [mkLayer_ctor, CtorCall.wtsArg] at hw0
            exact absurd hw0 (by simp)
          · intro hcent
            rw [mkLayer_tag] at hcent
            rcases hfirst with ht | ht <;> rw [ht] at hcent <;> exact absurd hcent (by decide)
        | succ j => exact absurd hi (by simp)
      · exact absurd hs1 (by simp)
    have htr : net.tr_layers = s1.tr_layers := by rw [hnet]; rfl
    have hrg : net.rand_gen = s1.rand_gen := by rw [hnet]; rfl
    refine ⟨by rw [hrg, hInv.2.1], ?_, ?_⟩
    · intro L hL
      rw [htr] at hL
      obtain ⟨i, hi⟩ := List.mem_iff_get?.1 hL
      exact (hInv.2.2.2 i L hi).1
    · intro i L hi
      rw [htr] at hi
      exact ⟨(hInv.2.2.2 i L hi).2.1, (hInv.2.2.2 i L hi).2.2⟩
  · intro net hb
    obtain ⟨s1, auxr, hs1, hscan, hnet⟩ := build_ok impl layers p none net hb
    have hInv : NoWtsInv s1 := by
      unfold NeuralNet.buildLayersStage at hs1
      split at hs1
      · exact absurd hs1 (by simp)
      rename_i spec0 hspec0
      split at hs1
      · rename_i hfirst
        refine buildLoop_ind impl NoWtsInv
          (fun s s' hP hstep => append_NoWtsInv impl s s' hP hstep)
          (layers.length - 1) _ s1 ?_ hs1
        refine ⟨rfl, ?_⟩
        intro L hL hcent
        rw [List.mem_singleton] at hL
        subst hL
        rw [mkLayer_tag] at hcent
        rcases hfirst with ht | ht <;> rw [ht] at hcent <;> exact absurd hcent (by decide)
      · exact absurd hs1 (by simp)
    have htr : net.tr_layers = s1.tr_layers := by rw [hnet]; rfl
    intro L hL hcent
    rw [htr] at hL
    exact hInv.2 L hL hcent

/-- C2 witness: on the concrete checkpoint-built network, the hidden layer
received weight group 1 verbatim, the centered-output layer received
the first two entries of group 2 and its entry 3 as centers, and no
constructor received a generator. -/
theorem claim2_witness :
    exNetW.rand_gen = none ∧
    (some [10] : Option WtGroup) = exAllwts.get? 1 ∧
    exCentL.ctor.wtsArg = some (some [1, 2]) ∧
    exCentL.ctor.centersArg = some 4 ∧
    exCentL.ctor.randArg = none := by
  have h := (claim2_weightset_construction trivialImpl
    [("InputLayer", 0), ("HiddenLayer", 1), ("CenteredOutLayer", 2)]
    exParams exAllwts (by decide)).1 exNetW rfl
  have hcent := (h.2.2 2 exCentL (by decide)).2 (by decide) [1, 2, 3, 4]
    (by decide) (by decide)
  exact ⟨h.1,
    (h.2.2 1 exHidL (by decide)).1 (by decide) (some [10]) (by decide),
    hcent.1.trans (by decide), hcent.2.trans (by decide),
    h.2.1 exCentL (by decide)⟩

theorem aux_mem_count (ls : List LayerInstance) (x : LayerInstance) (hx : x ∈ ls)
    (h : x.tag = "AuxConcatLayer" ∨ x.tag = "SoftAuxLayer") : 1 ≤ countAux ls :=
  List.countP_pos.2 ⟨x, hx, by simpa using h⟩

theorem countAux_cons (tr : LayerInstance) (rest : List LayerInstance) :
    countAux (tr :: rest) =
      countAux rest +
        (if tr.tag = "AuxConcatLayer" ∨ tr.tag = "SoftAuxLayer" then 1 else 0) := by
  rw [countAux, countAux, List.countP_cons]
  by_cases haux : tr.tag = "AuxConcatLayer" ∨ tr.tag = "SoftAuxLayer"
  · rw [if_pos haux, if_pos (by simpa using haux)]
  · rw [if_neg haux, if_neg (by simpa using haux)]

/-- A scan over aux-free pairs returns its accumulator unchanged. -/
theorem auxScan_no_aux (ps : List (LayerInstance × LayerInstance)) :
    ∀ acc, countAux (ps.map Prod.fst) = 0 → auxScan ps acc = Except.ok acc := by
  induction ps with
  | nil => intro acc _; rfl
  | cons pr rest ih =>
    intro acc hc
    obtain ⟨tr, te⟩ := pr
    rw [List.map_cons, countAux_cons] at hc
    have haux : ¬(tr.tag = "AuxConcatLayer" ∨ tr.tag = "SoftAuxLayer") := by
      intro hx
      rw [if_pos hx] at hc
      omega
    unfold auxScan
    rw [if_neg haux]
    exact ih acc (by rw [if_neg haux] at hc; omega)

/-- Two or more auxiliary-input layers always make the scan fail with the
multiple-auxiliary-input error, wherever they sit. -/
theorem auxScan_multi (ps : List (LayerInstance × LayerInstance)) :
    (∀ a0, 1 ≤ countAux (ps.map Prod.fst) →
      auxScan ps (some a0) = Except.error NetError.multipleAuxiliaryInput) ∧
    (2 ≤ countAux (ps.map Prod.fst) →
      auxScan ps none = Except.error NetError.multipleAuxiliaryInput) := by
  induction ps with
  | nil =>
    constructor
    · intro a0 h; rw [countAux] at h; simp at h
    · intro h; rw [countAux] at h; simp at h
  | cons pr rest ih =>
    obtain ⟨tr, te⟩ := pr
    constructor
    · intro a0 hcnt
      unfold auxScan
      by_cases haux : tr.tag = "AuxConcatLayer" ∨ tr.tag = "SoftAuxLayer"
      · rw [if_pos haux]
      · rw [if_neg haux]
        rw [List.map_cons, countAux_cons, if_neg haux] at hcnt
        exact ih.1 a0 (by omega)
    · intro hcnt
      unfold auxScan
      rw [List.map_cons, countAux_cons] at hcnt
      by_cases haux : tr.tag = "AuxConcatLayer" ∨ tr.tag = "SoftAuxLayer"
      · rw [if_pos haux]
        rw [if_pos haux] at hcnt
        exact ih.1 (tr.aux_inpt, te.aux_inpt) (by omega)
      · rw [if_neg haux]
        rw [if_neg haux] at hcnt
        exact ih.2 (by omega)

/-- A successful scan saw at most one auxiliary-input layer (none at all
when the accumulator was already set) and, for each auxiliary pair in
the list, returned exactly that pair's input handles. -/
theorem auxScan_ok_gen (ps : List (LayerInstance × LayerInstance)) :
    ∀ acc res, auxScan ps acc = Except.ok res →
      (∀ a0, acc = some a0 → countAux (ps.map Prod.fst) = 0 ∧ res = some a0) ∧
      (acc = none → countAux (ps.map Prod.fst) ≤ 1) ∧
      ∀ pr, pr ∈ ps → (pr.1.tag = "AuxConcatLayer" ∨ pr.1.tag = "SoftAuxLayer") →
        res = some (pr.1.aux_inpt, pr.2.aux_inpt) := by
  induction ps with
  | nil =>
    intro acc res h
    injection h with h'
    refine ⟨?_, ?_, ?_⟩
    · intro a0 ha
      exact ⟨by rw [countAux]; rfl, h' ▸ ha⟩
    · intro _
      rw [countAux]
      simp
    · intro pr hpr
      exact absurd hpr (List.not_mem_nil pr)
  | cons pr0 rest ih =>
    obtain ⟨tr, te⟩ := pr0
    intro acc res h
    unfold auxScan at h
    by_cases haux : tr.tag = "AuxConcatLayer" ∨ tr.tag = "SoftAuxLayer"
    · rw [if_pos haux] at h
      cases acc with
      | some a0 => exact absurd h (by simp)
      | none =>
        obtain ⟨h1, _, h3⟩ := ih (some (tr.aux_inpt, te.aux_inpt)) res h
        obtain ⟨hrest0, hres⟩ := h1 (tr.aux_inpt, te.aux_inpt) rfl
        refine ⟨?_, ?_, ?_⟩
        · intro a0 ha
          cases ha
        · intro _
          rw [List.map_cons, countAux_cons, if_pos haux, hrest0]
        · intro pr hpr hpra
          rcases List.mem_cons.1 hpr with rfl | hpr
          · exact hres
          · exfalso
            have hone := aux_mem_count (rest.map Prod.fst) pr.1
              (List.mem_map_of_mem Prod.fst hpr) hpra
            omega
    · rw [if_neg haux] at h
      obtain ⟨h1, h2, h3⟩ := ih acc res h
      refine ⟨?_, ?_, ?_⟩
      · intro a0 ha
        obtain ⟨hr0, hres⟩ := h1 a0 ha
        exact ⟨by rw [List.map_cons, countAux_cons, if_neg haux, hr0], hres⟩
      · intro ha
        rw [List.map_cons, countAux_cons, if_neg haux]
        have := h2 ha
        omega
      · intro pr hpr hpra
        rcases List.mem_cons.1 hpr with rfl | hpr
        · exact absurd hpra haux
        · exact h3 pr hpr hpra

/-- C6: if the assembled chains contain two or more auxiliary-input layers
(`AuxConcatLayer` / `SoftAuxLayer`), wherever they appear, construction
fails with the multiple-auxiliary-input error; a successfully
constructed network contains at most one such layer, and when exactly
one exists (at any position `i`) the network records that train layer's
and test layer's auxiliary input handles. -/
theorem claim6_auxiliary_input_resolution (impl : LayerImpl)
    (layers : List LayerSpec) (p : TrParms) (aw : Option (List WtGroup)) :
    (∀ s1, NeuralNet.buildLayersStage impl layers p aw = Except.ok s1 →
      2 ≤ countAux s1.tr_layers →
      NeuralNet.build impl layers p aw =
        Except.error NetError.multipleAuxiliaryInput) ∧
    (∀ net, NeuralNet.build impl layers p aw = Except.ok net →
      countAux net.tr_layers ≤ 1 ∧
      (∀ i L Lte, net.tr_layers.get? i = some L → net.te_layers.get? i = some Lte →
        (L.tag = "AuxConcatLayer" ∨ L.tag = "SoftAuxLayer") →
        net.aux_inpt_tr = L.aux_inpt ∧ net.aux_inpt_te = Lte.aux_inpt)) := by
  constructor
  · intro s1 hs1 hcnt
    have hwf := (buildLayersStage_ok impl layers p aw s1 hs1).2.2.2.2.2.2.2.1
    have hmap : (s1.tr_layers.zip s1.te_layers).map Prod.fst = s1.tr_layers :=
      List.map_fst_zip s1.tr_layers s1.te_layers (by rw [hwf.1, hwf.2])
    have hscan := (auxScan_multi (s1.tr_layers.zip s1.te_layers)).2
      (by rw [hmap]; exact hcnt)
    unfold NeuralNet.build
    rw [hs1]
    simp only [hscan]
  · intro net hb
    obtain ⟨s1, auxr, hs1, hscan, hnet⟩ := build_ok impl layers p aw net hb
    have hwf := (buildLayersStage_ok impl layers p aw s1 hs1).2.2.2.2.2.2.2.1
    have hmap : (s1.tr_layers.zip s1.te_layers).map Prod.fst = s1.tr_layers :=
      List.map_fst_zip s1.tr_layers s1.te_layers (by rw [hwf.1, hwf.2])
    obtain ⟨_, h2, h3⟩ :=
      auxScan_ok_gen (s1.tr_layers.zip s1.te_layers) none auxr hscan
    have htr : net.tr_layers = s1.tr_layers := by rw [hnet]; rfl
    have hte : net.te_layers = s1.te_layers := by rw [hnet]; rfl
    constructor
    · rw [htr]
      have := h2 rfl
      rw [hmap] at this
      exact this
    · intro i L Lte hL hLte haux
      rw [htr] at hL
      rw [hte] at hLte
      have hzip : (s1.tr_layers.zip s1.te_layers).get? i = some (L, Lte) := by
        rw [List.get?_eq_getElem?] at hL hLte ⊢
        rw [List.getElem?_zip_eq_some]
        exact ⟨hL, hLte⟩
      have hres := h3 (L, Lte) (List.get?_mem hzip) haux
      subst hres
      constructor
      · rw [hnet]; rfl
      · rw [hnet]; rfl

/-- C6 witness: a spec list with two auxiliary-input layers is rejected
whatever their positions, and the single-aux network recorded the
auxiliary layer's train and test input handles. -/
theorem claim6_witness :
    NeuralNet.build trivialImpl
      [("InputLayer", 0), ("AuxConcatLayer", 1), ("SoftAuxLayer", 2)]
      exParams none = Except.error NetError.multipleAuxiliaryInput ∧
    exNetAux.aux_inpt_tr = some (SymT.aux true 1) ∧
    exNetAux.aux_inpt_te = some (SymT.aux false 1) := by
  have h1 := (claim6_auxiliary_input_resolution trivialImpl
    [("InputLayer", 0), ("AuxConcatLayer", 1), ("SoftAuxLayer", 2)]
    exParams none).1 exS2aux rfl (by decide)
  have h2 := (claim6_auxiliary_input_resolution trivialImpl
    [("InputLayer", 1), ("AuxConcatLayer", 2)] exParams none).2 exNetAux rfl
  have h3 := h2.2 1 exAuxL exAuxLte (by decide) (by decide) (Or.inl (by decide))
  exact ⟨h1, h3.1.trans (by decide), h3.2.trans (by decide)⟩

theorem obs_fields (L L' : LayerInstance) (h : L.obs = L'.obs) :
    L.tag = L'.tag ∧ L.num_maps = L'.num_maps ∧ L.out_sz = L'.out_sz ∧
    L.n_out = L'.n_out ∧ L.inpt = L'.inpt ∧ L.output = L'.output ∧
    L.aux_inpt = L'.aux_inpt ∧ L.saved = L'.saved :=
  ⟨congrArg LayerObs.tag h, congrArg LayerObs.num_maps h,
   congrArg LayerObs.out_sz h, congrArg LayerObs.n_out h,
   congrArg LayerObs.inpt h, congrArg LayerObs.output h,
   congrArg LayerObs.aux_inpt h, congrArg LayerObs.saved h⟩

theorem get?_obs (xs ys : List LayerInstance)
    (h : xs.map LayerInstance.obs = ys.map LayerInstance.obs) (i : Nat) :
    ∀ L, ys.get? i = some L → ∃ L', xs.get? i = some L' ∧ L'.obs = L.obs := by
  intro L hL
  have hx : (xs.map LayerInstance.obs).get? i = some L.obs := by
    rw [h, List.get?_map, hL]
    rfl
  rw [List.get?_map] at hx
  cases hxs : xs.get? i with
  | none => rw [hxs] at hx; cases hx
  | some L' =>
    rw [hxs] at hx
    injection hx with hx'
    exact ⟨L', rfl, hx'⟩

theorem TestVersion_obs (L L' : LayerInstance) (te : SymT) (idx : Nat)
    (h : L.obs = L'.obs) :
    (TestVersion L te idx).obs = (TestVersion L' te idx).obs := by
  obtain ⟨h1, h2, h3, h4, h5, h6, h7, h8⟩ := obs_fields L L' h
  unfold TestVersion LayerInstance.obs
  simp only [h1, h2, h3, h4, h8]

/-- The saved weight tuple of a centered-output layer: the stored hidden
groups, the internal slot-2 entry, and the centers at the end. -/
theorem mkCenteredLayer_saved (impl : LayerImpl) (inpt : SymT)
    (w2 : Option WtGroup) (cen : Option Tensor) (rg : Option Nat) (nIn : Nat)
    (args : LayerArgs) (idx : Nat) :
    ∃ hw cent,
      (mkCenteredLayer impl inpt w2 cen rg nIn args idx).saved =
        hw ++ [impl.slot2 hw cent, cent] ∧
      (∀ g, w2 = some g → hw = g) := by
  refine ⟨(match w2 with
            | some g => g
            | none => impl.initWts (CtorCall.centeredOut inpt w2 cen rg nIn args)),
    (match cen with
      | some c => c
      | none => impl.initCenters (CtorCall.centeredOut inpt w2 cen rg nIn args)),
    rfl, ?_⟩
  intro g hg
  subst hg
  rfl

theorem centered_group_shape (hw : WtGroup) (s2 cent : Tensor)
    (hlen : hw.length = 2) :
    (hw ++ [s2, cent]) ≠ [] ∧ (hw ++ [s2, cent]).get? 3 = some cent ∧
    (hw ++ [s2, cent]).take 2 = hw := by
  refine ⟨by simp, ?_, ?_⟩
  · rw [List.get?_append_right (by omega), hlen]
    rfl
  · rw [← hlen, List.take_left]

theorem mkWtLayer_some (impl : LayerImpl) (tag : String) (c : CtorCall)
    (g : WtGroup) (idx : Nat) :
    mkWtLayer impl tag c (some g) idx = mkLayer impl tag c g idx := rfl

theorem mkLayer_obs_congr (impl : LayerImpl) (tag : String) (c c' : CtorCall)
    (saved saved' : WtGroup) (idx idx' : Nat)
    (hsig : c.sig = c'.sig) (hinpt : c.inpt = c'.inpt) (hs : saved = saved')
    (hidx : idx = idx') :
    (mkLayer impl tag c saved idx).obs = (mkLayer impl tag c' saved' idx').obs := by
  unfold mkLayer LayerInstance.obs
  simp only [hsig, hinpt, hs, hidx]

theorem step_match (impl : LayerImpl) (sA sB : NeuralNet) (LA : LayerInstance)
    (te2A : SymT) (W : List WtGroup)
    (hm : StateMatch sA sB)
    (hW : sB.allwts = some W)
    (hWne : W ≠ [])
    (hnlA : sA.next_layer_and_te impl = Except.ok (LA, te2A))
    (hWk : W.get? sA.num_layers = some LA.saved)
    (h4A : LA.tag = "CenteredOutLayer" → LA.saved.length = 4) :
    ∃ LB te2B, sB.next_layer_and_te impl = Except.ok (LB, te2B) ∧
      LB.obs = LA.obs ∧ te2B = te2A ∧
      (LB.tag = "CenteredOutLayer" → LB.ctor.centersArg = LA.saved.get? 3) := by
  obtain ⟨hlay, hnum, hbsz, htrm, htem, hlenA, hlenAte, hcrel⟩ := hm
  obtain ⟨t, a, prev, prevTe, w, hspec, hprev, hprevTe, hw, hbr⟩ :=
    next_layer_ok impl sA LA te2A hnlA
  obtain ⟨prevB, hprevB, hprevBobs⟩ :=
    get?_obs sB.tr_layers sA.tr_layers htrm (sA.num_layers - 1) prev hprev
  obtain ⟨prevTeB, hprevTeB, hprevTeBobs⟩ :=
    get?_obs sB.te_layers sA.te_layers htem (sA.num_layers - 1) prevTe hprevTe
  obtain ⟨hptag, hpmaps, hpsz, hpn, hpinpt, hpout, hpaux, hpsaved⟩ :=
    obs_fields prevB prev hprevBobs
  obtain ⟨_, _, _, _, _, hteout, _, _⟩ := obs_fields prevTeB prevTe hprevTeBobs
  have hspecB : sB.layers.get? sB.num_layers = some (t, a) := by
    rw [hlay, hnum]; exact hspec
  have hprevB' : sB.tr_layers.get? (sB.num_layers - 1) = some prevB := by
    rw [hnum]; exact hprevB
  have hprevTeB' : sB.te_layers.get? (sB.num_layers - 1) = some prevTeB := by
    rw [hnum]; exact hprevTeB
  have hwB : sB.wtsOf = Except.ok (some LA.saved) := by
    unfold NeuralNet.wtsOf
    simp only [hW]
    rw [if_neg hWne, hnum, hWk]
  rcases hbr with ⟨ht, u, hu, hLA, hte2A⟩ | ⟨ht, u, hu, hLA, hte2A⟩
    | ⟨ht, hLA, hte2A⟩ | ⟨ht, hLA, hte2A⟩ | ⟨ht, w2, c, hsp, hLA, hte2A⟩
  · -- ConvLayer
    obtain ⟨uB, huB, huBobs⟩ : ∃ uB, sB.shapeSrc prevB = Except.ok uB ∧ uB.obs = u.obs := by
      rcases shapeSrc_ok sA prev u hu with ⟨hd, hg⟩ | ⟨hd, rfl⟩
      · obtain ⟨uB, hgB, hBobs⟩ := get?_obs sB.tr_layers sA.tr_layers htrm
          (sA.num_layers - 2) u hg
        refine ⟨uB, ?_, hBobs⟩
        unfold NeuralNet.shapeSrc
        rw [if_pos (hptag.trans hd), hnum, hgB]
      · refine ⟨prevB, ?_, hprevBobs⟩
        unfold NeuralNet.shapeSrc
        rw [if_neg (fun hx => hd (hptag.symm.trans hx))]
    obtain ⟨_, humaps, huosz, _, _, _, _, _⟩ := obs_fields uB u huBobs
    refine ⟨mkWtLayer impl t
      (CtorCall.conv prevB.output (some LA.saved) sB.rand_gen sB.batch_sz
        uB.num_maps uB.out_sz a) (some LA.saved) sB.num_layers,
      prevTeB.output, ?_, ?_, ?_, ?_⟩
    · unfold NeuralNet.next_layer_and_te
      simp only [hspecB, hprevB', hprevTeB', hwB]
      rw [if_pos (Or.inl ht)]
      simp only [huB]
      rw [if_pos ht]
    · rw [mkWtLayer_some, hLA]
      unfold mkWtLayer
      refine mkLayer_obs_congr impl t _ _ _ _ _ _ ?_ ?_ rfl hnum
      · unfold CtorCall.sig
        rw [hpout, hbsz, humaps, huosz]
      · unfold CtorCall.inpt
        exact hpout
    · rw [hteout, hte2A]
    · intro hcent
      rw [mkWtLayer_tag] at hcent
      exact absurd (ht.symm.trans hcent) (by decide)
  · -- Pool/MeanLayer
    obtain ⟨uB, huB, huBobs⟩ : ∃ uB, sB.shapeSrc prevB = Except.ok uB ∧ uB.obs = u.obs := by
      rcases shapeSrc_ok sA prev u hu with ⟨hd, hg⟩ | ⟨hd, rfl⟩
      · obtain ⟨uB, hgB, hBobs⟩ := get?_obs sB.tr_layers sA.tr_layers htrm
          (sA.num_layers - 2) u hg
        refine ⟨uB, ?_, hBobs⟩
        unfold NeuralNet.shapeSrc
        rw [if_pos (hptag.trans hd), hnum, hgB]
      · refine ⟨prevB, ?_, hprevBobs⟩
        unfold NeuralNet.shapeSrc
        rw [if_neg (fun hx => hd (hptag.symm.trans hx))]
    obtain ⟨_, humaps, huosz, _, _, _, _, _⟩ := obs_fields uB u huBobs
    refine ⟨mkLayer impl t
      (CtorCall.pool t prevB.output uB.num_maps uB.out_sz a) [] sB.num_layers,
      prevTeB.output, ?_, ?_, ?_, ?_⟩
    · unfold NeuralNet.next_layer_and_te
      simp only [hspecB, hprevB', hprevTeB', hwB]
      rw [if_pos (Or.inr ht)]
      simp only [huB]
      rw [if_neg (by rcases ht with ht | ht <;> subst ht <;> decide)]
    · rw [hLA]
      refine mkLayer_obs_congr impl t _ _ _ _ _ _ ?_ ?_ rfl hnum
      · unfold CtorCall.sig
        rw [hpout, humaps, huosz]
      · unfold CtorCall.inpt
        exact hpout
    · rw [hteout, hte2A]
    · intro hcent
      rw [mkLayer_tag] at hcent
      rcases ht with ht | ht <;> exact absurd (ht.symm.trans hcent) (by decide)
  · -- DropOutLayer
    refine ⟨mkLayer impl t
      (CtorCall.dropOut prevB.output sB.rand_gen prevB.n_out a) [] sB.num_layers,
      prevTeB.output, ?_, ?_, ?_, ?_⟩
    · unfold NeuralNet.next_layer_and_te
      simp only [hspecB, hprevB', hprevTeB', hwB]
      rw [if_neg (by subst ht; decide), if_pos ht]
    · rw [hLA]
      refine mkLayer_obs_congr impl t _ _ _ _ _ _ ?_ ?_ rfl hnum
      · unfold CtorCall.sig
        rw [hpout, hpn]
      · unfold CtorCall.inpt
        exact hpout
    · rw [hteout, hte2A]
    · intro hcent
      rw [mkLayer_tag] at hcent
      exact absurd (ht.symm.trans hcent) (by decide)
  · -- fully-connected family
    refine ⟨mkWtLayer impl t
      (CtorCall.fullConn t (SymT.flatten2 prevB.output) (some LA.saved) sB.rand_gen
        prevB.n_out a) (some LA.saved) sB.num_layers,
      SymT.flatten2 prevTeB.output, ?_, ?_, ?_, ?_⟩
    · unfold NeuralNet.next_layer_and_te
      simp only [hspecB, hprevB', hprevTeB', hwB]
      rw [if_neg (by rcases ht with ht | ht | ht | ht | ht <;> subst ht <;> decide),
        if_neg (by rcases ht with ht | ht | ht | ht | ht <;> subst ht <;> decide),
        if_pos ht]
    · rw [mkWtLayer_some, hLA]
      unfold mkWtLayer
      refine mkLayer_obs_congr impl t _ _ _ _ _ _ ?_ ?_ rfl hnum
      · unfold CtorCall.sig
        rw [hpout, hpn]
      · unfold CtorCall.inpt
        rw [hpout]
    · rw [hteout, hte2A]
    · intro hcent
      rw [mkWtLayer_tag] at hcent
      rcases ht with ht | ht | ht | ht | ht <;>
        exact absurd (ht.symm.trans hcent) (by decide)
  · -- CenteredOutLayer
    obtain ⟨hw2, cent, hsaved0, _⟩ :=
      mkCenteredLayer_saved impl (SymT.flatten2 prev.output) w2 c sA.rand_gen
        prev.n_out a sA.num_layers
    have hsaved : LA.saved = hw2 ++ [impl.slot2 hw2 cent, cent] := by
      rw [hLA]; exact hsaved0
    have hlen4 : LA.saved.length = 4 := h4A (by rw [hLA, mkCenteredLayer_tag])
    have hlen2 : hw2.length = 2 := by
      rw [hsaved] at hlen4
      simp at hlen4
      omega
    obtain ⟨hne0, hget30, htake0⟩ :=
      centered_group_shape hw2 (impl.slot2 hw2 cent) cent hlen2
    have hne : LA.saved ≠ [] := by rw [hsaved]; exact hne0
    have hget3 : LA.saved.get? 3 = some cent := by rw [hsaved]; exact hget30
    have htake : LA.saved.take 2 = hw2 := by rw [hsaved]; exact htake0
    have hspB : centSplit (some LA.saved) = Except.ok (some hw2, some cent) := by
      simp only [centSplit]
      rw [if_neg hne]
      simp only [hget3]
      rw [htake]
    refine ⟨mkCenteredLayer impl (SymT.flatten2 prevB.output) (some hw2) (some cent)
        sB.rand_gen prevB.n_out a sB.num_layers,
      SymT.flatten2 prevTeB.output, ?_, ?_, ?_, ?_⟩
    · unfold NeuralNet.next_layer_and_te
      simp only [hspecB, hprevB', hprevTeB', hwB]
      rw [if_neg (by subst ht; decide), if_neg (by subst ht; decide),
        if_neg (by subst ht; decide), if_pos ht]
      simp only [hspB]
    · rw [hLA]
      unfold mkCenteredLayer
      refine mkLayer_obs_congr impl "CenteredOutLayer" _ _ _ _ _ _ ?_ ?_ ?_ hnum
      · unfold CtorCall.sig
        rw [hpout, hpn]
      · unfold CtorCall.inpt
        rw [hpout]
      · exact hsaved0.symm
    · rw [hteout, hte2A]
    · intro _
      rw [mkCenteredLayer_ctor]
      unfold CtorCall.centersArg
      exact hget3.symm

theorem loop_match (impl : LayerImpl) (fA : NeuralNet)
    (h4 : ∀ L, L ∈ fA.tr_layers → L.tag = "CenteredOutLayer" → L.saved.length = 4) :
    ∀ n sA sB, buildLoop impl n sA = Except.ok fA →
      StateMatch sA sB →
      sB.allwts = some (fA.tr_layers.map LayerInstance.saved) →
      ∃ fB, buildLoop impl n sB = Except.ok fB ∧ StateMatch fA fB := by
  intro n
  induction n with
  | zero =>
    intro sA sB hloop hm hW
    injection hloop with h'
    subst h'
    exact ⟨sB, rfl, hm⟩
  | succ n ih =>
    intro sA sB hloop hm hW
    unfold buildLoop at hloop
    split at hloop
    · rename_i sA2 hsA2
      obtain ⟨LA, te2A, hnlA, rfl⟩ := append_ok impl sA sA2 hsA2
      obtain ⟨_, _, _, _, _, _, _, tl, el, htr, hte⟩ :=
        buildLoop_preserves impl n _ fA hloop
      rw [pushLayer_tr_layers] at htr
      have hlenA := hm.2.2.2.2.2.1
      have hWk : (fA.tr_layers.map LayerInstance.saved).get? sA.num_layers =
          some LA.saved := by
        rw [htr, List.map_append, List.map_append,
          List.get?_append (by simp [hlenA]), List.map_singleton]
        rw [show sA.num_layers = (sA.tr_layers.map LayerInstance.saved).length from
          by rw [List.length_map, hlenA]]
        exact List.get?_concat_length _ _
      have hWne : fA.tr_layers.map LayerInstance.saved ≠ [] := by
        rw [htr]
        simp
      have h4A : LA.tag = "CenteredOutLayer" → LA.saved.length = 4 := by
        intro hc
        refine h4 LA ?_ hc
        rw [htr]
        simp
      obtain ⟨LB, te2B, hnlB, hobs, hteq, hcentB⟩ :=
        step_match impl sA sB LA te2A (fA.tr_layers.map LayerInstance.saved)
          hm hW hWne hnlA hWk h4A
      subst hteq
      have happB : NeuralNet.append_next_layer impl sB =
          Except.ok (sB.pushLayer LB te2B) := by
        unfold NeuralNet.append_next_layer
        rw [hnlB]
      obtain ⟨hlay, hnum, hbsz, htrm, htem, _, hlenAte, hcrel⟩ := hm
      have hlenB : sB.tr_layers.length = sA.num_layers := by
        have := congrArg List.length htrm
        simpa [hlenA] using this
      have hm2 : StateMatch (sA.pushLayer LA te2B) (sB.pushLayer LB te2B) := by
        refine ⟨by simpa using hlay, by simp [hnum], by simpa using hbsz, ?_, ?_, ?_, ?_, ?_⟩
        · rw [pushLayer_tr_layers, pushLayer_tr_layers, List.map_append,
            List.map_append, htrm, List.map_singleton, List.map_singleton, hobs]
        · rw [pushLayer_te_layers, pushLayer_te_layers, List.map_append,
            List.map_append, htem, List.map_singleton, List.map_singleton,
            TestVersion_obs LB LA te2B sB.num_layers hobs, hnum]
        · simp [hlenA]
        · simp [hlenAte]
        · intro i LB' hi hc
          rw [pushLayer_tr_layers] at hi
          rcases Nat.lt_trichotomy i sB.tr_layers.length with hlt | heq | hgt
          · rw [List.get?_append hlt] at hi
            obtain ⟨LA', hLA', hceq⟩ := hcrel i LB' hi hc
            refine ⟨LA', ?_, hceq⟩
            rw [pushLayer_tr_layers,
              List.get?_append (by rw [hlenA]; omega)]
            exact hLA'
          · subst heq
            rw [List.get?_concat_length] at hi
            injection hi with hi'
            subst hi'
            refine ⟨LA, ?_, hcentB hc⟩
            rw [pushLayer_tr_layers, hlenB,
              show sA.num_layers = sA.tr_layers.length from hlenA.symm]
            exact List.get?_concat_length _ _
          · rw [List.get?_append_right (by omega)] at hi
            have hne : i - sB.tr_layers.length ≠ 0 := by omega
            rcases Nat.exists_eq_succ_of_ne_zero hne with ⟨j, hj⟩
            rw [hj] at hi
            exact absurd hi (by simp)
      obtain ⟨fB, hloopB, hmB⟩ := ih (sA.pushLayer LA te2B) (sB.pushLayer LB te2B)
        hloop hm2 (by rw [pushLayer_allwts]; exact hW)
      refine ⟨fB, ?_, hmB⟩
      unfold buildLoop
      simp only [happB]
      exact hloopB
    · exact absurd hloop (by simp)

theorem auxScan_obs (as : List LayerInstance) :
    ∀ (bs as' bs' : List LayerInstance),
      as.map LayerInstance.obs = as'.map LayerInstance.obs →
      bs.map LayerInstance.obs = bs'.map LayerInstance.obs →
      ∀ acc, auxScan (as.zip bs) acc = auxScan (as'.zip bs') acc := by
  induction as with
  | nil =>
    intro bs as' bs' ha hb acc
    cases as' with
    | nil => cases bs <;> cases bs' <;> rfl
    | cons _ _ => cases ha
  | cons a rest ih =>
    intro bs as' bs' ha hb acc
    cases as' with
    | nil => cases ha
    | cons a' rest' =>
      injection ha with ha1 ha2
      cases bs with
      | nil =>
        cases bs' with
        | nil => rfl
        | cons _ _ => cases hb
      | cons b bs2 =>
        cases bs' with
        | nil => cases hb
        | cons b' bs2' =>
          injection hb with hb1 hb2
          obtain ⟨hatag, _, _, _, _, _, haaux, _⟩ := obs_fields a a' ha1
          obtain ⟨_, _, _, _, _, _, hbaux, _⟩ := obs_fields b b' hb1
          show auxScan ((a, b) :: rest.zip bs2) acc =
            auxScan ((a', b') :: rest'.zip bs2') acc
          unfold auxScan
          rw [hatag, haaux, hbaux]
          by_cases hx : a'.tag = "AuxConcatLayer" ∨ a'.tag = "SoftAuxLayer"
          · rw [if_pos hx, if_pos hx]
            cases acc with
            | some a0 => rfl
            | none => exact ih bs2 rest' bs2' ha2 hb2 _
          · rw [if_neg hx, if_neg hx]
            exact ih bs2 rest' bs2' ha2 hb2 acc

theorem map_saved_of_obs (xs : List LayerInstance) :
    ∀ ys : List LayerInstance,
      xs.map LayerInstance.obs = ys.map LayerInstance.obs →
      xs.map LayerInstance.saved = ys.map LayerInstance.saved := by
  induction xs with
  | nil =>
    intro ys h
    cases ys with
    | nil => rfl
    | cons _ _ => cases h
  | cons x rest ih =>
    intro ys h
    cases ys with
    | nil => cases h
    | cons y rest' =>
      injection h with h1 h2
      rw [List.map_cons, List.map_cons, (obs_fields x y h1).2.2.2.2.2.2.2, ih rest' h2]

/-- C8: rebuilding a network from the structure returned by
`get_init_params` (its layer specs, its training parameters, and every
train layer's saved weight group) succeeds and yields a network with
observationally identical train and test chains — same tags, shape
metadata, symbolic wiring and bit-identical weights — whose own
checkpoint equals the original's; every centered-output layer of the
rebuilt network took its class centers from index 3 of the
corresponding saved weight group.  (The hypothesis `h4` states that each
centered-output layer's saved group has its centers at index 3, i.e.
length 4 — exactly the tuple shape `get_init_params` saves for them.) -/
theorem claim8_checkpoint_roundtrip (impl : LayerImpl) (layers : List LayerSpec)
    (p : TrParms) (aw : Option (List WtGroup)) (A : NeuralNet)
    (hA : NeuralNet.build impl layers p aw = Except.ok A)
    (h4 : ∀ L, L ∈ A.tr_layers → L.tag = "CenteredOutLayer" → L.saved.length = 4) :
    ∃ B, NeuralNet.build impl A.get_init_params.layers
        A.get_init_params.training_params (some A.get_init_params.allwts) =
          Except.ok B ∧
      B.tr_layers.map LayerInstance.obs = A.tr_layers.map LayerInstance.obs ∧
      B.te_layers.map LayerInstance.obs = A.te_layers.map LayerInstance.obs ∧
      B.get_init_params.allwts = A.get_init_params.allwts ∧
      (∀ i L, B.tr_layers.get? i = some L → L.tag = "CenteredOutLayer" →
        ∃ g, A.get_init_params.allwts.get? i = some g ∧
          L.ctor.centersArg = g.get? 3) := by
  obtain ⟨s1A, auxrA, hs1A, hscanA, hAdef⟩ := build_ok impl layers p aw A hA
  have hAtr : A.tr_layers = s1A.tr_layers := by rw [hAdef]; rfl
  have hAte : A.te_layers = s1A.te_layers := by rw [hAdef]; rfl
  have hAlay : A.layers = s1A.layers := by rw [hAdef]; rfl
  have hfields := buildLayersStage_ok impl layers p aw s1A hs1A
  have hlayers : s1A.layers = layers := hfields.1
  -- open up the A-side stage to expose the loop
  have hs1A' := hs1A
  unfold NeuralNet.buildLayersStage at hs1A'
  split at hs1A'
  · exact absurd hs1A' (by simp)
  rename_i spec0 hspec0
  split at hs1A'
  case isFalse => exact absurd hs1A' (by simp)
  rename_i hfirst
  -- the rebuild inputs
  have hq : A.get_init_params.training_params =
      (if p.CUR_EPOCH = none then { p with CUR_EPOCH := some 0 } else p) :=
    build_tr_prms impl layers p aw A hA
  have hW : A.get_init_params.allwts = s1A.tr_layers.map LayerInstance.saved := by
    show A.tr_layers.map LayerInstance.saved = _
    rw [hAtr]
  have hbq : A.get_init_params.training_params.BATCH_SZ = p.BATCH_SZ := by
    rw [hq]
    by_cases hc : p.CUR_EPOCH = none
    · rw [if_pos hc]
    · rw [if_neg hc]
  have h4' : ∀ L, L ∈ s1A.tr_layers → L.tag = "CenteredOutLayer" →
      L.saved.length = 4 := by
    intro L hL
    exact h4 L (by rw [hAtr]; exact hL)
  -- loop-level match
  obtain ⟨fB, hloopB, hmB⟩ := loop_match impl s1A h4' (layers.length - 1)
    _
    { rand_gen := randGenOf A.get_init_params.training_params
        (some A.get_init_params.allwts),
      tr_prms := A.get_init_params.training_params, layers := layers,
      allwts := some A.get_init_params.allwts,
      tr_layers := [mkLayer impl spec0.1 (CtorCall.inputL SymT.x spec0.2) [] 0],
      te_layers := [TestVersion
        (mkLayer impl spec0.1 (CtorCall.inputL SymT.x spec0.2) [] 0) SymT.test_x 0],
      batch_sz := A.get_init_params.training_params.BATCH_SZ, num_layers := 1,
      aux_inpt_tr := none, aux_inpt_te := none, cur_learn_rate := 0 }
    hs1A'
    (by
      refine ⟨rfl, rfl, by simpa using hbq, rfl, rfl, rfl, rfl, ?_⟩
      intro i LB hi hc
      cases i with
      | zero =>
        injection hi with hi'
        subst hi'
        rw [mkLayer_tag] at hc
        rcases hfirst with hf | hf <;> rw [hf] at hc <;> exact absurd hc (by decide)
      | succ j => exact absurd hi (by simp))
    (by rw [hW])
  obtain ⟨hflay, hfnum, hfbsz, hftrm, hftem, _, _, hfcrel⟩ := hmB
  -- the B-side stage
  have hstageB : NeuralNet.buildLayersStage impl layers
      A.get_init_params.training_params (some A.get_init_params.allwts) =
        Except.ok fB := by
    unfold NeuralNet.buildLayersStage
    simp only [hspec0]
    rw [if_pos hfirst]
    exact hloopB
  -- the B-side scan
  have hscanB : auxScan (fB.tr_layers.zip fB.te_layers) none = Except.ok auxrA := by
    rw [auxScan_obs fB.tr_layers fB.te_layers s1A.tr_layers s1A.te_layers
      hftrm hftem none]
    exact hscanA
  refine ⟨NeuralNet.set_rate
    { fB with
      aux_inpt_tr := auxFst auxrA, aux_inpt_te := auxSnd auxrA,
      tr_prms := (if fB.tr_prms.CUR_EPOCH = none
                  then { fB.tr_prms with CUR_EPOCH := some 0 } else fB.tr_prms),
      cur_learn_rate := 0 }, ?_, ?_, ?_, ?_, ?_⟩
  · show NeuralNet.build impl A.get_init_params.layers
        A.get_init_params.training_params (some A.get_init_params.allwts) = _
    have hgl : A.get_init_params.layers = layers := by
      show A.layers = layers
      rw [hAlay, hlayers]
    rw [hgl]
    unfold NeuralNet.build
    rw [hstageB]
    simp only [hscanB]
  · show fB.tr_layers.map LayerInstance.obs = _
    rw [hftrm, hAtr]
  · show fB.te_layers.map LayerInstance.obs = _
    rw [hftem, hAte]
  · show fB.tr_layers.map LayerInstance.saved = A.tr_layers.map LayerInstance.saved
    rw [hAtr]
    exact map_saved_of_obs fB.tr_layers s1A.tr_layers hftrm
  · intro i L hi hc
    obtain ⟨LA', hLA', hcent⟩ := hfcrel i L hi hc
    refine ⟨LA'.saved, ?_, hcent⟩
    show (A.tr_layers.map LayerInstance.saved).get? i = some LA'.saved
    rw [hAtr, List.get?_map, hLA']
    rfl

/-- C8 witness: the concrete checkpoint-built network (which ends in a
centered-output layer) round-trips through `get_init_params` to an
observationally identical network. -/
theorem claim8_witness :
    NeuralNet.build trivialImpl exNetW.get_init_params.layers
      exNetW.get_init_params.training_params
      (some exNetW.get_init_params.allwts) = Except.ok exNetB ∧
    exNetB.tr_layers.map LayerInstance.obs =
      exNetW.tr_layers.map LayerInstance.obs := by
  obtain ⟨B, hb, h1, _⟩ := claim8_checkpoint_roundtrip trivialImpl
    [("InputLayer", 0), ("HiddenLayer", 1), ("CenteredOutLayer", 2)]
    exParams (some exAllwts) exNetW rfl (by decide)
  have hB : exNetB = B := by
    unfold exNetB
    rw [hb]
  exact ⟨hB.symm ▸ hb, hB.symm ▸ h1⟩
